import Mathlib

/-!
Verification development for the task-assistant message-handling and
tool-dispatch orchestrator (`chat.service.ts`, `ai.service.ts`,
`config/tools.ts`, `config/format.ts`).

The TypeScript source is shallowly embedded: JSON values produced by
`JSON.parse` become the inductive `JVal`; the Supabase `tasks` table becomes
an explicit `DB` state threaded through the operations; every `async`
function that can `throw` is embedded as a function into `Except String`,
where `Except.error` models a thrown exception and `Except.ok` a returned
value.  Store errors reported by the Supabase client (`{ data, error }`
pairs) are injected through the `failIds` / `insertFails` / `readFails`
fields of `DB`.  `Date.now()` and `new Date(s).getTime()` are supplied by an
environment record (`Env`), with `none` modelling an Invalid Date (NaN).
-/

namespace NoteAI

/-- JSON values, the result type of `JSON.parse`.  Numbers are modelled as
rationals (JS numbers in this code base are integers and small decimal
weights; NaN/Infinity cannot come out of `JSON.parse`).  `undefined` cannot
occur inside a parsed JSON document, so it is not a `JVal`; an absent object
key is modelled as `Option.none` at the lookup site. -/
inductive JVal where
  | jnull
  | jbool (b : Bool)
  | jnum (q : Rat)
  | jstr (s : String)
  | jarr (xs : List JVal)
  | jobj (fields : List (String × JVal))

/-- JavaScript truthiness on parsed JSON values: `null`, `false`, `0` and the
empty string are falsy; every array and object is truthy. -/
def JVal.truthy : JVal → Bool
  | .jnull => false
  | .jbool b => b
  | .jnum q => q != 0
  | .jstr s => s != ""
  | .jarr _ => true
  | .jobj _ => true

/-- Truthiness of a possibly-absent value (`undefined` is falsy). -/
def truthyO : Option JVal → Bool
  | none => false
  | some v => v.truthy

/-- Property access `o[k]` on a parsed JSON object.  `JSON.parse` keeps the
last occurrence of a duplicated key, hence `getLast?`. -/
def jget (o : List (String × JVal)) (k : String) : Option JVal :=
  ((o.filter (fun p => p.1 == k)).getLast?).map (fun p => p.2)

/-- Optional-chained property access `v?.k`: on a non-object (or absent)
value it yields `undefined`, never a thrown error. -/
def jgetObj : Option JVal → String → Option JVal
  | some (.jobj fields), k => jget fields k
  | _, _ => none

/-- Argument sanitation step of `executeToolCall` (chat.service.ts):
`for (const [key, value] of Object.entries(rawArgs)) if (value !== null &&
value !== undefined) args[key] = value;` — keys whose value is `null` are
removed, everything else is kept unchanged.  (`undefined` values cannot
occur in the output of `JSON.parse`.) -/
def sanitizeArgs (raw : List (String × JVal)) : List (String × JVal) :=
  raw.filter (fun p => match p.2 with | .jnull => false | _ => true)

/-- Template-literal rendering of a JSON value, used only inside error
message strings (`Task ${taskId}: ...`).  Collections are rendered
shallowly; no claim inspects the text of these messages. -/
def JVal.display : JVal → String
  | .jnull => "null"
  | .jbool b => if b then "true" else "false"
  | .jnum q => toString q
  | .jstr s => s
  | .jarr _ => "[array]"
  | .jobj _ => "[object]"

/-- One row of the `tasks` table (interface `Task` in chat.service.ts,
columns as in the Supabase schema).  Dates are the ISO strings stored in the
row. -/
structure Task where
  id : Nat
  user_id : String
  content : String
  due_date : Option String := none
  priority : Option String := none
  status : Option String := none
  labels : Option (List String) := none
  duration_minutes : Option Int := none
  notes : Option String := none
  created_at : String := ""
deriving Repr, DecidableEq

/-- State of the external task store plus an explicit model of the store
errors the Supabase client may report: an update/delete touching an id in
`failIds` reports an error, inserts report an error when `insertFails`, and
table reads report an error when `readFails`. -/
structure DB where
  tasks : List Task := []
  nextId : Nat := 1
  failIds : List Nat := []
  insertFails : Bool := false
  readFails : Bool := false
deriving Repr, DecidableEq

/-- Fixed text of a store-reported error (the `error.message` supplied by
the Supabase client; its exact text is environment-chosen and irrelevant,
but it is never empty). -/
def dbErrMsg : String := "database error"

/-- Decode a JSON value into a text column (postgres rejects non-text
input; modelled as the store error the insert/update would report). -/
def JVal.asString : JVal → Except String String
  | .jstr s => .ok s
  | _ => .error "invalid input syntax"

/-- Decode a JSON array of strings into a `text[]` column. -/
def decodeStrList : List JVal → Except String (List String)
  | [] => .ok []
  | .jstr s :: rest => (decodeStrList rest).map (fun l => s :: l)
  | _ :: _ => .error "invalid input syntax"

def JVal.asStrList : JVal → Except String (List String)
  | .jarr xs => decodeStrList xs
  | _ => .error "invalid input syntax"

/-- Decode a JSON value into an `integer` column. -/
def JVal.asInt : JVal → Except String Int
  | .jnum q => if q.den == 1 then .ok q.num else .error "invalid input syntax"
  | _ => .error "invalid input syntax"

/-- Structural decimal parsing over the character list (the semantics of
`String.toInt?`, restated by structural recursion so that concrete
instances evaluate). -/
def parseNatGo : List Char → Nat → Option Nat
  | [], acc => some acc
  | c :: rest, acc =>
    if c.isDigit then parseNatGo rest (acc * 10 + (c.toNat - 48)) else none

def parseNatChars : List Char → Option Nat
  | [] => none
  | cs => parseNatGo cs 0

def strToInt (s : String) : Option Int :=
  match s.data with
  | '-' :: rest => (parseNatChars rest).map (fun n => -(n : Int))
  | cs => (parseNatChars cs).map (fun n => (n : Int))

/-- Decode the value compared against the `bigint` id column by
`.eq('id', x)`: the catalog sends task ids as strings, PostgREST coerces
numerals and rejects anything else. -/
def JVal.asTaskId : JVal → Except String Int
  | .jnum q => if q.den == 1 then .ok q.num else .error "invalid input syntax"
  | .jstr s =>
    match strToInt s with
    | some n => .ok n
    | none => .error "invalid input syntax"
  | _ => .error "invalid input syntax"

/-- Decode an optional field of an insert/update payload; an absent field is
simply not written. -/
def decodeOpt (f : JVal → Except String α) : Option JVal → Except String (Option α)
  | none => .ok none
  | some v => (f v).map some

/-- Row payload built by `addTask`: `user_id`, `content`, `status` always,
the remaining columns only when the corresponding argument was included. -/
structure InsertPayload where
  user_id : String
  content : Option JVal
  status : String
  due_date : Option JVal := none
  priority : Option JVal := none
  labels : Option JVal := none
  duration_minutes : Option JVal := none
  notes : Option JVal := none

/-- The store-side `insert([taskData]).select('id').single()`: decodes the
payload against the column types, appends the row, and returns its fresh id.
Reports an error when `insertFails` (environment-injected store failure) or
when a payload value does not fit its column. -/
def dbInsert (db : DB) (p : InsertPayload) : Except String (DB × Nat) :=
  if db.insertFails then .error dbErrMsg
  else
    match (match p.content with
           | some v => v.asString
           | none => Except.error "null value in column content") with
    | .error m => .error m
    | .ok content =>
    match decodeOpt JVal.asString p.due_date with
    | .error m => .error m
    | .ok due =>
    match decodeOpt JVal.asString p.priority with
    | .error m => .error m
    | .ok pri =>
    match decodeOpt JVal.asStrList p.labels with
    | .error m => .error m
    | .ok lab =>
    match decodeOpt JVal.asInt p.duration_minutes with
    | .error m => .error m
    | .ok dur =>
    match decodeOpt JVal.asString p.notes with
    | .error m => .error m
    | .ok nts =>
      let t : Task := { id := db.nextId, user_id := p.user_id, content := content,
                        due_date := due, priority := pri, status := some p.status,
                        labels := lab, duration_minutes := dur, notes := nts }
      .ok ({ db with tasks := db.tasks ++ [t], nextId := db.nextId + 1 }, db.nextId)

/-- The `if (error) throw new Error(\`Failed to ...: ${error.message}\`)`
pattern shared by the task helpers: a store error is rethrown with a fixed
prefix, a success is passed through. -/
def rethrow {α : Type} (p : String) : Except String α → Except String α
  | .ok r => .ok r
  | .error m => .error (p ++ m)

/-- The `addTask` helper of chat.service.ts: assembles `taskData`, adding
`due_date`/`priority`/`labels`/`notes` only when truthy and
`duration_minutes` whenever it is not `undefined`, then inserts.  A store
error is rethrown as `Failed to add task: ...`. -/
def addTask (db : DB) (userId : String)
    (title due priority labels durationMinutes notes : Option JVal) :
    Except String (DB × Nat) :=
  let payload : InsertPayload :=
    { user_id := userId
      content := title
      status := "open"
      due_date := if truthyO due then due else none
      priority := if truthyO priority then priority else none
      labels := if truthyO labels then labels else none
      duration_minutes := durationMinutes
      notes := if truthyO notes then notes else none }
  rethrow "Failed to add task: " (dbInsert db payload)

/-- The store-side `delete().eq('user_id', u).eq('id', tid)`: coerces the id
value, reports an injected store error for ids in `failIds`, otherwise
removes every row matching both filters (matching no row is not an
error). -/
def dbDelete (db : DB) (userId : String) (taskId : Option JVal) :
    Except String DB :=
  match (match taskId with
         | some v => v.asTaskId
         | none => Except.error "invalid input syntax") with
  | .error m => .error m
  | .ok tid =>
    if db.failIds.any (fun i => ((i : Int) == tid)) then .error dbErrMsg
    else
      .ok { db with
            tasks := db.tasks.filter
              (fun t => !(t.user_id == userId && ((t.id : Int) == tid))) }

/-- The `deleteTask` helper of chat.service.ts. -/
def deleteTask (db : DB) (userId : String) (taskId : Option JVal) :
    Except String DB :=
  rethrow "Failed to delete task: " (dbDelete db userId taskId)

/-- The `dbUpdates` object assembled by `updateTask`: one optional value per
column, present exactly when the corresponding field of `updates` was
included. -/
structure DbPatch where
  content : Option JVal := none
  due_date : Option JVal := none
  priority : Option JVal := none
  labels : Option JVal := none
  duration_minutes : Option JVal := none
  notes : Option JVal := none
  status : Option JVal := none

/-- Field-by-field translation of `updateTask`'s conditionals: a field is
copied into `dbUpdates` (under its column name) exactly when its value is
truthy — falsy values (`null`, `''`, `0`, `false`) and absent fields are
dropped. -/
def mkDbUpdates (updates : List (String × JVal)) : DbPatch :=
  { content := if truthyO (jget updates "title") then jget updates "title" else none
    due_date := if truthyO (jget updates "due") then jget updates "due" else none
    priority := if truthyO (jget updates "priority") then jget updates "priority" else none
    labels := if truthyO (jget updates "labels") then jget updates "labels" else none
    duration_minutes :=
      if truthyO (jget updates "duration_minutes") then jget updates "duration_minutes" else none
    notes := if truthyO (jget updates "notes") then jget updates "notes" else none
    status := if truthyO (jget updates "status") then jget updates "status" else none }

/-- A `DbPatch` decoded against the column types of the `tasks` table. -/
structure TypedPatch where
  content : Option String := none
  due_date : Option String := none
  priority : Option String := none
  labels : Option (List String) := none
  duration_minutes : Option Int := none
  notes : Option String := none
  status : Option String := none
deriving Repr, DecidableEq

def decodePatch (p : DbPatch) : Except String TypedPatch :=
  match decodeOpt JVal.asString p.content with
  | .error m => .error m
  | .ok content =>
  match decodeOpt JVal.asString p.due_date with
  | .error m => .error m
  | .ok due =>
  match decodeOpt JVal.asString p.priority with
  | .error m => .error m
  | .ok pri =>
  match decodeOpt JVal.asStrList p.labels with
  | .error m => .error m
  | .ok lab =>
  match decodeOpt JVal.asInt p.duration_minutes with
  | .error m => .error m
  | .ok dur =>
  match decodeOpt JVal.asString p.notes with
  | .error m => .error m
  | .ok nts =>
  match decodeOpt JVal.asString p.status with
  | .error m => .error m
  | .ok st =>
    .ok { content := content, due_date := due, priority := pri, labels := lab,
          duration_minutes := dur, notes := nts, status := st }

/-- Apply a decoded patch to one row: columns present in the patch take the
new value, every other column keeps the row's old value. -/
def applyPatch (p : TypedPatch) (t : Task) : Task :=
  { t with
    content := p.content.getD t.content
    due_date := p.due_date <|> t.due_date
    priority := p.priority <|> t.priority
    labels := p.labels <|> t.labels
    duration_minutes := p.duration_minutes <|> t.duration_minutes
    notes := p.notes <|> t.notes
    status := p.status <|> t.status }

/-- The store-side `update(dbUpdates).eq('user_id', u).eq('id', tid)`.
An update matching no row is not an error; ids in `failIds` report an
injected store error. -/
def dbUpdate (db : DB) (userId : String) (taskId : Option JVal)
    (patch : DbPatch) : Except String DB :=
  match (match taskId with
         | some v => v.asTaskId
         | none => Except.error "invalid input syntax") with
  | .error m => .error m
  | .ok tid =>
  match decodePatch patch with
  | .error m => .error m
  | .ok tp =>
    if db.failIds.any (fun i => ((i : Int) == tid)) then .error dbErrMsg
    else .ok { db with tasks := db.tasks.map (fun t =>
      if t.user_id == userId && ((t.id : Int) == tid) then applyPatch tp t else t) }

/-- The `updateTask` helper of chat.service.ts: builds `dbUpdates` from the
truthy fields of `updates` and issues the scoped update. -/
def updateTask (db : DB) (userId : String) (taskIdentifier : Option JVal)
    (updates : List (String × JVal)) : Except String DB :=
  rethrow "Failed to update task: "
    (dbUpdate db userId taskIdentifier (mkDbUpdates updates))

/-- Sort keys of an `order(column)` call — text columns compare as strings,
numeric columns as integers.  The `labels` array column is keyed by its
joined text (array ordering is never reachable from the catalog's `sort`
enum). -/
inductive ColKey where
  | s (v : String)
  | n (v : Int)
deriving Repr, DecidableEq

def colKey (c : String) (t : Task) : Option ColKey :=
  match c with
  | "id" => some (.n t.id)
  | "user_id" => some (.s t.user_id)
  | "content" => some (.s t.content)
  | "due_date" => t.due_date.map ColKey.s
  | "priority" => t.priority.map ColKey.s
  | "status" => t.status.map ColKey.s
  | "labels" => t.labels.map (fun ls => ColKey.s (String.intercalate "," ls))
  | "duration_minutes" => t.duration_minutes.map ColKey.n
  | "notes" => t.notes.map ColKey.s
  | "created_at" => some (.s t.created_at)
  | _ => none

def tasksColumns : List String :=
  ["id", "user_id", "content", "due_date", "priority", "status", "labels",
   "duration_minutes", "notes", "created_at"]

def keyLe : ColKey → ColKey → Bool
  | .s a, .s b => a ≤ b
  | .n a, .n b => a ≤ b
  | .s _, .n _ => true
  | .n _, .s _ => false

/-- Comparison used to realize `order(column, { ascending })`: postgres
places NULLs last on an ascending order and first on a descending one. -/
def rowLe (c : String) (asc : Bool) (a b : Task) : Bool :=
  match colKey c a, colKey c b with
  | none, none => true
  | none, some _ => !asc
  | some _, none => asc
  | some x, some y => if asc then keyLe x y else keyLe y x

/-- Shared shape of the four `if (filter?.x) query = query.cmp('col', x)`
statements: the filter is applied only when its value is truthy, and a
non-string value is rejected by the text column when the query runs. -/
def strFilter (v : Option JVal) : Except String (Option String) :=
  match v with
  | some w => if w.truthy then (w.asString).map some else .ok none
  | none => .ok none

/-- The `filter?.labels_any && filter.labels_any.length > 0` guard of the
`overlaps` filter: only values with a positive `.length` apply it, and a
non-empty string is rejected by the `text[]` column. -/
def labelsAnyFilter (v : Option JVal) : Except String (Option (List String)) :=
  match v with
  | some (.jarr xs) =>
      if xs.length > 0 then (decodeStrList xs).map some else .ok none
  | some (.jstr s) =>
      if s.length > 0 then .error "malformed array literal" else .ok none
  | _ => .ok none

/-- The `'x_y'.split('_')` destructuring used on the sort parameter,
restated by structural recursion over the character list. -/
def splitOnUnderscore : List Char → List (List Char)
  | [] => [[]]
  | c :: rest =>
    match splitOnUnderscore rest with
    | [] => [[]]
    | g :: gs => if c = '_' then [] :: g :: gs else (c :: g) :: gs

def splitUnderscore (s : String) : List String :=
  (splitOnUnderscore s.data).map (fun cs => String.mk cs)

/-- Store-side part of `listTasksWithFilters`: selects the caller's rows,
applies each filter only when its value is truthy, then sorts per the
`sort.split('_')` destructuring with the `due` → `due_date` column rename.
Errors here are the ones the Supabase client reports when the query is
awaited.  (The non-string-sort branch is handled by the wrapper and is
unreachable here.) -/
def listQuery (db : DB) (userId : String) (filter : Option JVal)
    (sortV : JVal) : Except String (List Task) :=
  if db.readFails then .error dbErrMsg
  else
  match strFilter (jgetObj filter "priority_at_least") with
  | .error m => .error m
  | .ok pri =>
  match strFilter (jgetObj filter "due_before") with
  | .error m => .error m
  | .ok dueBefore =>
  match strFilter (jgetObj filter "due_after") with
  | .error m => .error m
  | .ok dueAfter =>
  match strFilter (jgetObj filter "status") with
  | .error m => .error m
  | .ok status =>
  match labelsAnyFilter (jgetObj filter "labels_any") with
  | .error m => .error m
  | .ok labelsAny =>
  let rows := db.tasks.filter (fun t =>
    t.user_id == userId
    && (match pri with
        | some p => match t.priority with
          | some tp => decide (p ≤ tp)
          | none => false
        | none => true)
    && (match dueBefore with
        | some d => match t.due_date with
          | some td => decide (td ≤ d)
          | none => false
        | none => true)
    && (match dueAfter with
        | some d => match t.due_date with
          | some td => decide (d ≤ td)
          | none => false
        | none => true)
    && (match status with
        | some s => match t.status with
          | some ts => ts == s
          | none => false
        | none => true)
    && (match labelsAny with
        | some la => match t.labels with
          | some ls => ls.any (fun l => la.contains l)
          | none => false
        | none => true))
  if sortV.truthy then
    match sortV with
    | .jstr s =>
      let parts := splitUnderscore s
      let field := parts.headD ""
      let ord := parts.getD 1 ""
      let dbField := if field == "due" then "due_date" else field
      if tasksColumns.contains dbField then
        .ok (rows.mergeSort (rowLe dbField (ord == "asc")))
      else
        .error ("column tasks." ++ dbField ++ " does not exist")
    | _ => .error "unreachable"
  else
    .ok rows

/-- The `listTasksWithFilters` helper proper.  A non-string truthy `sort`
raises a synchronous TypeError at `sort.split('_')`, before the query runs
and outside the `Failed to list tasks:` wrapping; every store-reported
error (filter value coercion, unknown order column, read failure) is
rethrown as `Failed to list tasks: ...`. -/
def listTasksWithFilters (db : DB) (userId : String)
    (filter : Option JVal) (sortArg : Option JVal) :
    Except String (List Task) :=
  let sortV : JVal := sortArg.getD (.jstr "due_asc")
  match sortV.truthy, sortV with
  | true, .jstr _ | false, _ =>
    (listQuery db userId filter sortV).mapError
      (fun m => "Failed to list tasks: " ++ m)
  | true, _ => .error "sort.split is not a function"

/-- One entry of the `risks` array computed by `checkDeadlineRisks`.
`days_until_due = none` models the NaN produced when the row's due date
does not parse (`new Date(...)` Invalid Date); every comparison with NaN is
false, so such a row is neither at risk nor overdue. -/
structure RiskEntry where
  task_id : Nat
  task_title : String
  due_date : Option String
  days_until_due : Option Int
  at_risk : Bool
  overdue : Bool
deriving Repr, DecidableEq

/-- Ceiling division for a positive divisor, the integer value of
`Math.ceil(x / b)` for exact millisecond arithmetic. -/
def ceilDiv (a b : Int) : Int := -((-a).fdiv b)

/-- Body of the `.map` in `checkDeadlineRisks`:
`daysUntilDue = Math.ceil((due.getTime() - now.getTime()) / 86400000)`,
`at_risk = daysUntilDue <= thresholdDays && daysUntilDue >= 0`,
`overdue = daysUntilDue < 0`.  `thr = none` models a NaN threshold (never
produced by a catalog-conforming call). -/
def riskEntryOf (dateMs : String → Option Int) (now : Int) (thr : Option Rat)
    (t : Task) : RiskEntry :=
  let d? := (t.due_date.bind dateMs).map (fun ms => ceilDiv (ms - now) 86400000)
  { task_id := t.id
    task_title := t.content
    due_date := t.due_date
    days_until_due := d?
    at_risk := match d?, thr with
      | some d, some th => decide ((d : Rat) ≤ th) && decide (0 ≤ d)
      | _, _ => false
    overdue := match d? with
      | some d => decide (d < 0)
      | none => false }

structure RisksOut where
  risks : List RiskEntry
  total_at_risk : Nat
deriving Repr, DecidableEq

/-- The `threshold_days || 7` default: a falsy value (absent, `0`) falls
back to 7; a truthy non-number would coerce to NaN in the later comparisons
(numeric strings are not modelled — the catalog types the field as an
integer). -/
def thresholdOf (v : Option JVal) : Option Rat :=
  match v with
  | none => some 7
  | some (.jnum q) => if q != 0 then some q else some 7
  | some w => if w.truthy then none else some 7

/-- The `checkDeadlineRisks` operation: fetches the caller's rows with a
non-null due date (optionally restricted by `task_ids`), maps each row
through `riskEntryOf` with the current time, and keeps the entries that are
at risk or overdue. -/
def checkDeadlineRisks (dateMs : String → Option Int) (now : Int) (db : DB)
    (userId : String) (args : List (String × JVal)) :
    Except String RisksOut :=
  let taskIdsV := jget args "task_ids"
  let thr := thresholdOf (jget args "threshold_days")
  if db.readFails then
    .error ("Failed to check deadline risks: " ++ dbErrMsg)
  else
  match (match taskIdsV with
         | some (.jarr xs) =>
             if xs.length > 0 then
               ((xs.mapM JVal.asTaskId).map some).mapError
                 (fun m => "Failed to check deadline risks: " ++ m)
             else Except.ok none
         | some v =>
             if v.truthy then
               Except.error ("Failed to check deadline risks: " ++ "invalid input syntax")
             else Except.ok none
         | none => Except.ok none) with
  | .error m => .error m
  | .ok idFilter =>
    let rows := db.tasks.filter (fun t =>
      t.user_id == userId
      && t.due_date.isSome
      && (match idFilter with
          | some ids => ids.contains (t.id : Int)
          | none => true))
    let risks := (rows.map (riskEntryOf dateMs now thr)).filter
      (fun r => r.at_risk || r.overdue)
    .ok { risks := risks, total_at_risk := risks.length }

/-- Multiplicative numeric coercion of a possibly-absent JS value
(`baseScore * w.impact`): `undefined` gives NaN (`none`), `null` gives 0,
booleans 0/1, numbers themselves; strings/arrays/objects are modelled as
NaN (the catalog types the weights as numbers, so the numeric-string quirk
is out of reach). -/
def toNumMul : Option JVal → Option Rat
  | none => none
  | some .jnull => some 0
  | some (.jbool b) => some (if b then 1 else 0)
  | some (.jnum q) => some q
  | some (.jstr _) => none
  | some (.jarr _) => none
  | some (.jobj _) => none

structure ScoreBreakdown where
  impact : Option Rat
  urgency : Option Rat
  effort : Option Rat
  risk : Option Rat
deriving Repr, DecidableEq

structure Score where
  total : Rat
  breakdown : ScoreBreakdown
  explanation : String
deriving Repr, DecidableEq

/-- The `priorityMap[task.priority] || 50` lookup. -/
def baseScoreOf : Option String → Rat
  | some "P0" => 100
  | some "P1" => 75
  | some "P2" => 50
  | some "P3" => 25
  | _ => 50

/-- The `.single()` fetch of `calculatePriorityScore`: errors when the read
fails, when the id value does not coerce, or when not exactly one row
matches. -/
def singleTaskFetch (db : DB) (userId : String) (taskId : Option JVal) :
    Except String Task :=
  match (match taskId with
         | some v => v.asTaskId
         | none => Except.error "invalid input syntax") with
  | .error m => .error m
  | .ok tid =>
    if db.readFails then .error dbErrMsg
    else
      match db.tasks.filter (fun t => t.user_id == userId && ((t.id : Int) == tid)) with
      | [t] => .ok t
      | _ => .error "JSON object requested, multiple (or no) rows returned"

/-- The `calculatePriorityScore` operation: `.single()` fetch of the
caller's row (an error when the read fails, the id does not coerce, or not
exactly one row matches, rethrown as `Failed to get task: ...`), then the
placeholder scoring arithmetic with `weights || defaults`. -/
def calculatePriorityScore (db : DB) (userId : String)
    (taskId : Option JVal) (weights : Option JVal) : Except String Score :=
  match (singleTaskFetch db userId taskId).mapError
      (fun m => "Failed to get task: " ++ m) with
  | .error m => .error m
  | .ok t =>
  let useGiven := truthyO weights
  let wImpact := if useGiven then toNumMul (jgetObj weights "impact") else some (3 / 10)
  let wUrgency := if useGiven then toNumMul (jgetObj weights "urgency") else some (3 / 10)
  let wEffort := if useGiven then toNumMul (jgetObj weights "effort") else some (2 / 10)
  let wRisk := if useGiven then toNumMul (jgetObj weights "risk") else some (2 / 10)
  let baseScore := baseScoreOf t.priority
  .ok { total := baseScore
        breakdown :=
          { impact := wImpact.map (fun w => baseScore * w)
            urgency := wUrgency.map (fun w => baseScore * w)
            effort := wEffort.map (fun w => baseScore * w)
            risk := wRisk.map (fun w => baseScore * w) }
        explanation := "Task scored " ++ toString baseScore
          ++ " based on priority " ++ (match t.priority with
            | some p => p
            | none => "null") }

/-- First-occurrence deduplication, the order `Array.from(new Set(xs))`
produces for primitive values. -/
def jsDedupGo : List String → List String → List String
  | [], _ => []
  | a :: rest, seen =>
    if a ∈ seen then jsDedupGo rest seen else a :: jsDedupGo rest (a :: seen)

def jsDedup (l : List String) : List String := jsDedupGo l []

/-- The `{ success, failed, errors }` accumulator of `bulkUpdateTasks`. -/
structure BulkResults where
  success : Nat := 0
  failed : Nat := 0
  errors : List String := []
deriving Repr, DecidableEq

/-- The ignored-error `.select('labels').eq('id', tid).eq('user_id', u)
.single()` of the relabel branch: the destructuring drops `error`, so a
read failure, a bad id, or a row count other than one all just yield no
row. -/
def selectSingleForLabels (db : DB) (userId : String) (taskId : JVal) :
    Option Task :=
  if db.readFails then none
  else
    match taskId.asTaskId with
    | .error _ => none
    | .ok tid =>
      match db.tasks.filter (fun t => ((t.id : Int) == tid) && t.user_id == userId) with
      | [t] => some t
      | _ => none

/-- Body of one iteration of the `for (const taskId of task_ids)` loop of
`bulkUpdateTasks` (the part inside the per-target `try`).  Branches with no
matching `case` and branches whose guard is falsy do nothing.  In the
relabel branch, non-string members of `labels_add` are rejected at the
`text[]` column (the spread itself cannot throw on a JSON array). -/
def bulkStep (db : DB) (userId : String) (opStr : Option String)
    (opParams : Option JVal) (taskId : JVal) : Except String DB :=
  match opStr with
  | some "relabel" =>
    match jgetObj opParams "labels_add" with
    | some v =>
      if v.truthy then
        match v.asStrList with
        | .error m => .error m
        | .ok adds =>
          let current := match selectSingleForLabels db userId taskId with
            | some t => t.labels.getD []
            | none => []
          let newLabels := jsDedup (current ++ adds)
          updateTask db userId (some taskId)
            [("labels", .jarr (newLabels.map JVal.jstr))]
      else .ok db
    | none => .ok db
  | some "archive" => updateTask db userId (some taskId) [("status", .jstr "archived")]
  | some "delete" => deleteTask db userId (some taskId)
  | _ => .ok db

/-- The loop of `bulkUpdateTasks`: every target is visited in order; a
caught per-target failure increments `failed` and appends one
`Task ...: ...` message, a completed iteration increments `success`. -/
def bulkLoop (userId : String) (opStr : Option String) (opParams : Option JVal) :
    DB → List JVal → BulkResults → DB × BulkResults
  | db, [], acc => (db, acc)
  | db, tid :: rest, acc =>
    match bulkStep db userId opStr opParams tid with
    | .ok db2 =>
      bulkLoop userId opStr opParams db2 rest
        { acc with success := acc.success + 1 }
    | .error m =>
      bulkLoop userId opStr opParams db rest
        { acc with failed := acc.failed + 1,
                   errors := acc.errors ++ ["Task " ++ tid.display ++ ": " ++ m] }

/-- The `bulkUpdateTasks` operation.  An absent/falsy or empty `task_ids`
throws `No task IDs provided` before the loop; a truthy non-array is not
iterable (the character-by-character iteration of a non-empty string is not
modelled — the catalog types `task_ids` as an array). -/
def bulkUpdateTasks (db : DB) (userId : String)
    (args : List (String × JVal)) : Except String (DB × BulkResults) :=
  let opStr := match jget args "operation" with
    | some (.jstr s) => some s
    | _ => none
  let opParams := jget args "params"
  match jget args "task_ids" with
  | some (.jarr xs) =>
    if xs.length == 0 then .error "No task IDs provided"
    else .ok (bulkLoop userId opStr opParams db xs {})
  | some v =>
    if v.truthy then .error "task_ids is not iterable"
    else .error "No task IDs provided"
  | none => .error "No task IDs provided"

/-- The `.length || 0` idiom on a possibly-absent value: arrays and strings
have a length, everything else contributes 0. -/
def jlen : Option JVal → Nat
  | some (.jarr xs) => xs.length
  | some (.jstr s) => s.length
  | _ => 0

structure ScheduleOut where
  scheduled : Nat
  blocks : List JVal
  message : String

/-- Placeholder `scheduleTasksToCalendar`. -/
def scheduleTasksToCalendar (args : List (String × JVal)) : ScheduleOut :=
  { scheduled := jlen (jget args "task_ids")
    blocks := []
    message := "Calendar scheduling not yet implemented" }

structure RescheduleOut where
  rescheduled : Nat
  conflicts_resolved : Nat
  message : String

/-- Placeholder `rescheduleTasks`. -/
def rescheduleTasks (args : List (String × JVal)) : RescheduleOut :=
  { rescheduled := jlen (jget args "task_ids")
    conflicts_resolved := 0
    message := "Rescheduling not yet implemented" }

structure Brief where
  summary : String
  acceptance_criteria : Option (List String)
  subtasks : Option (List String)
deriving Repr, DecidableEq

/-- The `generateTaskBrief` operation: one model call whose failure
propagates out (to the dispatcher's catch); on success the reply content
(`|| ''`) becomes the summary and the two option flags gate the placeholder
lists. -/
def generateTaskBrief (briefCall : Except String (Option String))
    (_input : Option JVal) (options : List (String × JVal)) :
    Except String Brief :=
  match briefCall with
  | .error m => .error m
  | .ok c =>
  .ok { summary := c.getD ""
        acceptance_criteria :=
          if truthyO (jget options "generate_acceptance_criteria") then
            some ["Criteria 1", "Criteria 2"]
          else none
        subtasks :=
          if truthyO (jget options "generate_subtasks") then
            some ["Subtask 1", "Subtask 2"]
          else none }

structure UndoOut where
  undone : Bool
  message : String
  action_id : Option JVal

/-- Placeholder `undoLastAction`. -/
def undoLastAction (actionId : Option JVal) : UndoOut :=
  { undone := false
    message := "Undo functionality requires audit_log table setup"
    action_id := actionId }

/-- The `output` field of one Operation Result: `success:true` payloads are
one constructor per operation (their fields mirror the object literals of
`executeToolCall`), `err` is the `{ success:false, error }` shape. -/
inductive ToolOutput where
  | createTask (task_id : Nat) (message : String)
  | updateTaskOk (message : String)
  | listTasks (tasks : List Task) (count : Nat)
  | schedule (s : ScheduleOut) (preview_only : Option JVal)
  | reschedule (r : RescheduleOut)
  | risks (r : RisksOut)
  | score (s : Score) (explanation : String)
  | bulk (r : BulkResults)
  | brief (b : Brief)
  | undo (u : UndoOut)
  | clarification (needs_clarification : Bool)
      (missing_fields context suggestions : Option JVal)
  | err (error : String)

/-- One Operation Result, `{ tool_call_id, output }`. -/
structure ToolResult where
  tool_call_id : String
  output : ToolOutput

/-- One model-proposed invocation.  The `arguments` field is the outcome of
`JSON.parse` on the JSON-encoded argument string: `ok` the parsed value,
`error` the `SyntaxError` a malformed string raises. -/
structure ToolCall where
  id : String
  name : String
  arguments : Except String JVal

/-- `Object.entries` on a parsed JSON value: object fields, array indices,
nothing for primitives. -/
def jentries : JVal → List (String × JVal)
  | .jobj fields => fields
  | .jarr xs => xs.enum.map (fun p => (toString p.1, p.2))
  | _ => []

/-- Environment of one request: the clock, date parsing, and the outcomes
of the external model calls (selection, composition, task-brief). -/
structure Env where
  now : Int
  dateMs : String → Option Int
  briefContent : Except String (Option String)

/-- Property enumeration of a possibly non-object value: `updates.x` reads
on a primitive yield `undefined`, i.e. no fields. -/
def jfields : JVal → List (String × JVal)
  | .jobj fs => fs
  | _ => []

/-- Render of `${args.title}` inside the create-task message. -/
def displayO : Option JVal → String
  | some v => v.display
  | none => "undefined"

/-- The dispatch switch of `executeToolCall`, i.e. everything inside its
`try { switch (functionName) ... } catch`: it always produces a result —
every operation error is caught and becomes `ToolOutput.err` — and threads
the store state of the operations that write. -/
def dispatchToolCall (env : Env) (db : DB) (userId : String)
    (callId : String) (functionName : String)
    (args : List (String × JVal)) : DB × ToolResult :=
  if functionName = "create_task" then
    match addTask db userId (jget args "title") (jget args "due")
        (jget args "priority") (jget args "labels")
        (jget args "duration_minutes") (jget args "notes") with
    | .ok (db2, id) =>
      (db2, ⟨callId, .createTask id
        ("Task \"" ++ displayO (jget args "title") ++ "\" created successfully")⟩)
    | .error m => (db, ⟨callId, .err m⟩)
  else if functionName = "update_task" then
    match jget args "set" with
    | none =>
      -- updates.title on an undefined `set` raises a TypeError inside the try
      (db, ⟨callId, .err "Cannot read properties of undefined"⟩)
    | some setV =>
      let tid := if truthyO (jget args "task_id") then jget args "task_id"
                 else jget args "fuzzy_key"
      match updateTask db userId tid (jfields setV) with
      | .ok db2 => (db2, ⟨callId, .updateTaskOk "Task updated successfully"⟩)
      | .error m => (db, ⟨callId, .err m⟩)
  else if functionName = "list_tasks" then
    match listTasksWithFilters db userId (jget args "filter") (jget args "sort") with
    | .ok tasks => (db, ⟨callId, .listTasks tasks tasks.length⟩)
    | .error m => (db, ⟨callId, .err m⟩)
  else if functionName = "schedule_tasks_to_calendar" then
    (db, ⟨callId, .schedule (scheduleTasksToCalendar args) (jget args "preview_only")⟩)
  else if functionName = "reschedule_tasks" then
    (db, ⟨callId, .reschedule (rescheduleTasks args)⟩)
  else if functionName = "check_deadline_risks" then
    match checkDeadlineRisks env.dateMs env.now db userId args with
    | .ok r => (db, ⟨callId, .risks r⟩)
    | .error m => (db, ⟨callId, .err m⟩)
  else if functionName = "calculate_priority_score" then
    match calculatePriorityScore db userId (jget args "task_id") (jget args "weights") with
    | .ok s => (db, ⟨callId, .score s s.explanation⟩)
    | .error m => (db, ⟨callId, .err m⟩)
  else if functionName = "bulk_update_tasks" then
    match bulkUpdateTasks db userId args with
    | .ok (db2, r) => (db2, ⟨callId, .bulk r⟩)
    | .error m => (db, ⟨callId, .err m⟩)
  else if functionName = "generate_task_brief" then
    match generateTaskBrief env.briefContent (jget args "short_input") args with
    | .ok b => (db, ⟨callId, .brief b⟩)
    | .error m => (db, ⟨callId, .err m⟩)
  else if functionName = "undo_last_action" then
    (db, ⟨callId, .undo (undoLastAction (jget args "action_id"))⟩)
  else if functionName = "ask_clarification" then
    (db, ⟨callId, .clarification true (jget args "missing_fields")
      (jget args "context") (jget args "suggestions")⟩)
  else
    (db, ⟨callId, .err "Unknown tool"⟩)

/-- The `executeToolCall` handler.  `JSON.parse(toolCall.function.arguments)`
runs before the `try` block, so a malformed argument string escapes as an
exception (`Except.error`); once parsing succeeds the sanitized argument
bag goes through the guarded dispatch, which cannot fail. -/
def executeToolCall (env : Env) (db : DB) (userId : String) (tc : ToolCall) :
    Except String (DB × ToolResult) :=
  match tc.arguments with
  | .error e => .error e
  | .ok rawArgs =>
    let args := sanitizeArgs (jentries rawArgs)
    .ok (dispatchToolCall env db userId tc.id tc.name args)

/-- The operation names of the catalog (`AI_TOOLS` in config/tools.ts).
Note that `get_audit_log` is in the catalog although its dispatch case is
commented out. -/
def catalogNames : List String :=
  ["create_task", "update_task", "list_tasks", "schedule_tasks_to_calendar",
   "reschedule_tasks", "check_deadline_risks", "calculate_priority_score",
   "bulk_update_tasks", "generate_task_brief", "undo_last_action",
   "get_audit_log", "ask_clarification"]

/-- Outcome of the selection model call when it resolves: the message's
content and its (possibly empty) list of tool calls. -/
structure Selection where
  content : Option String
  toolCalls : List ToolCall

/-- Outcomes of the two model calls made by `handleMessage`. -/
structure ModelCalls where
  selection : Except String Selection
  composition : Except String (Option String)

/-- Reply of `sendMessage`: the prose plus, when tools ran, the
`optional_data.tool_results` payload. -/
structure SendMessageResponse where
  reply : String
  tool_results : Option (List ToolResult)

def genericErrorReply : String :=
  "Sorry, I encountered an error processing your request."

def noResponseReply : String := "Sorry, I couldn't generate a response."

/-- The `Promise.all(tool_calls.map(executeToolCall))` fan-out: every
invocation runs (store effects are threaded through all of them), each
yielding either a settled Operation Result or a rejection; one rejection
poisons the combined promise but does not stop the siblings. -/
def runBatch (env : Env) (userId : String) :
    DB → List ToolCall → DB × List (Except String ToolResult)
  | db, [] => (db, [])
  | db, tc :: rest =>
    match executeToolCall env db userId tc with
    | .ok (db2, r) =>
      let (db3, rs) := runBatch env userId db2 rest
      (db3, .ok r :: rs)
    | .error e =>
      let (db3, rs) := runBatch env userId db rest
      (db3, .error e :: rs)

/-- The `handleMessage` pipeline after the transcript is assembled: the
selection call, the tool fan-out, and the composition call, all inside one
`try` whose catch returns the generic error reply.  With no tool calls the
selection content (`|| noResponseReply`) is the reply; with tool calls the
composition content (`|| 'Action completed.'`) is the reply and the results
ride along as `optional_data`. -/
def handleMessage (env : Env) (calls : ModelCalls) (db : DB)
    (userId : String) : DB × SendMessageResponse :=
  match calls.selection with
  | .error _ => (db, ⟨genericErrorReply, none⟩)
  | .ok sel =>
    if sel.toolCalls.isEmpty then
      (db, ⟨(match sel.content with
        | some s => if s != "" then s else noResponseReply
        | none => noResponseReply), none⟩)
    else
      let (db2, outs) := runBatch env userId db sel.toolCalls
      if outs.any (fun o => match o with | .error _ => true | .ok _ => false) then
        -- Promise.all rejected: caught by the outer catch, results discarded
        (db2, ⟨genericErrorReply, none⟩)
      else
        let results := outs.filterMap (fun o => match o with
          | .ok r => some r
          | .error _ => none)
        match calls.composition with
        | .error _ => (db2, ⟨genericErrorReply, none⟩)
        | .ok c =>
          (db2, ⟨(match c with
            | some s => if s != "" then s else "Action completed."
            | none => "Action completed."), some results⟩)

/-! Response Schema Registry (`RESPONSE_FORMAT` in config/format.ts).  Each
zod schema is embedded as a boolean validator over parsed JSON values: a
listed key must be present with the right type, `.nullable()` additionally
accepts `null`, `.optional()` additionally accepts absence, and unknown
keys are ignored (zod's default stripping behavior). -/

def vStr : JVal → Bool
  | .jstr _ => true
  | _ => false

def vNum : JVal → Bool
  | .jnum _ => true
  | _ => false

def vBool : JVal → Bool
  | .jbool _ => true
  | _ => false

def vAny : JVal → Bool := fun _ => true

def vNullable (p : JVal → Bool) : JVal → Bool
  | .jnull => true
  | v => p v

def vArr (p : JVal → Bool) : JVal → Bool
  | .jarr xs => xs.all p
  | _ => false

def reqField (o : List (String × JVal)) (k : String) (p : JVal → Bool) : Bool :=
  match jget o k with
  | some v => p v
  | none => false

def optField (o : List (String × JVal)) (k : String) (p : JVal → Bool) : Bool :=
  match jget o k with
  | some v => p v
  | none => true

/-- The task-shaped payload shared by the create_task and update_task
schemas. -/
def vTaskPayload (o : List (String × JVal)) : Bool :=
  reqField o "ai_summary" vStr
  && reqField o "task_id" vNum
  && reqField o "task_title" vStr
  && reqField o "task_status" vStr
  && reqField o "task_duration_minutes" (vNullable vNum)
  && reqField o "task_priority" (vNullable vStr)
  && reqField o "task_labels" (vNullable (vArr vStr))
  && reqField o "task_due_date" (vNullable vStr)

def vListTasksItem : JVal → Bool
  | .jobj o =>
    reqField o "id" vNum
    && reqField o "title" vStr
    && reqField o "status" vStr
    && reqField o "duration_minutes" (vNullable vNum)
    && reqField o "priority" (vNullable vStr)
    && reqField o "labels" (vNullable (vArr vStr))
    && reqField o "due_date" (vNullable vStr)
  | _ => false

def vRiskItem : JVal → Bool
  | .jobj o =>
    reqField o "task_id" vNum
    && reqField o "task_title" vStr
    && reqField o "due_date" vStr
    && reqField o "days_until_due" vNum
    && reqField o "at_risk" vBool
    && reqField o "overdue" vBool
  | _ => false

def vBreakdown : JVal → Bool
  | .jobj o =>
    reqField o "impact" vNum
    && reqField o "urgency" vNum
    && reqField o "effort" vNum
    && reqField o "risk" vNum
  | _ => false

/-- The validator `RESPONSE_FORMAT[name].safeParse(...).success`, one case
per schema of config/format.ts; `none` for a name with no schema. -/
def RESPONSE_FORMAT : String → Option (JVal → Bool)
  | "create_task" => some (fun v => match v with
      | .jobj o => vTaskPayload o
      | _ => false)
  | "list_tasks" => some (fun v => match v with
      | .jobj o =>
        reqField o "ai_summary" vStr
        && reqField o "tasks" (vArr vListTasksItem)
        && reqField o "count" vNum
      | _ => false)
  | "update_task" => some (fun v => match v with
      | .jobj o => vTaskPayload o
      | _ => false)
  | "delete_task" => some (fun v => match v with
      | .jobj o => reqField o "ai_summary" vStr && reqField o "task_id" vNum
      | _ => false)
  | "schedule_tasks_to_calendar" => some (fun v => match v with
      | .jobj o =>
        reqField o "ai_summary" vStr
        && reqField o "scheduled_count" vNum
        && reqField o "blocks" (vArr vAny)
      | _ => false)
  | "reschedule_tasks" => some (fun v => match v with
      | .jobj o =>
        reqField o "ai_summary" vStr
        && reqField o "rescheduled_count" vNum
        && reqField o "conflicts_resolved" vNum
      | _ => false)
  | "check_deadline_risks" => some (fun v => match v with
      | .jobj o =>
        reqField o "ai_summary" vStr
        && reqField o "risks" (vArr vRiskItem)
        && reqField o "total_at_risk" vNum
      | _ => false)
  | "calculate_priority_score" => some (fun v => match v with
      | .jobj o =>
        reqField o "ai_summary" vStr
        && reqField o "task_id" vStr
        && reqField o "total_score" vNum
        && reqField o "breakdown" vBreakdown
        && reqField o "explanation" vStr
      | _ => false)
  | "bulk_update_tasks" => some (fun v => match v with
      | .jobj o =>
        reqField o "ai_summary" vStr
        && reqField o "success_count" vNum
        && reqField o "failed_count" vNum
        && reqField o "errors" (vArr vStr)
      | _ => false)
  | "generate_task_brief" => some (fun v => match v with
      | .jobj o =>
        reqField o "ai_summary" vStr
        && reqField o "summary" vStr
        && optField o "acceptance_criteria" (vArr vStr)
        && optField o "subtasks" (vArr vStr)
      | _ => false)
  | "undo_last_action" => some (fun v => match v with
      | .jobj o =>
        reqField o "ai_summary" vStr
        && reqField o "undone" vBool
        && reqField o "action_id" (vNullable vStr)
      | _ => false)
  | "ask_clarification" => some (fun v => match v with
      | .jobj o =>
        reqField o "ai_summary" vStr
        && reqField o "needs_clarification" vBool
        && reqField o "missing_fields" (vArr vStr)
        && reqField o "context" vStr
        && reqField o "suggestions" (vNullable (vArr vStr))
      | _ => false)
  | _ => none

/-- The `AIService.structured_output` method (ai.service.ts): the schema
lookup and the model call run inside one `try` whose catch rethrows a fixed
error, so a missing schema and a failed call both surface as
`No valid response from AI`; a resolved call returns the message content as
is. -/
def structured_output (modelCall : Except String (Option String))
    (tool_name : String) : Except String (Option String) :=
  if (RESPONSE_FORMAT tool_name).isNone then .error "No valid response from AI"
  else
    match modelCall with
    | .ok c => .ok c
    | .error _ => .error "No valid response from AI"

/-- Outcome of the Structured Formatter: the payload handed to the caller
and whether it is a validated structured response (`fallback = false`) or a
raw passthrough (`fallback = true`). -/
structure FormatResult where
  value : JVal
  fallback : Bool

/-- Modelled from the spec: the Structured Formatter
(`format(operationName, rawOutput)`, the `formatToolResult` function the
repository docs place in chat.service.ts) is not among the provided source
files — only its schema registry (`RESPONSE_FORMAT`) and the model-side
`structured_output` strategy are.  Per the spec, it looks up the operation's
schema in the registry, maps the raw output to the declared shape
(`mapRaw`, the per-operation field renames, kept abstract here), validates
the mapped object strictly, and on validation success returns the validated
object; on validation failure or missing schema it returns the raw
unvalidated output verbatim, marked as a fallback. -/
def formatToolResult (mapRaw : String → JVal → JVal) (name : String)
    (raw : JVal) : FormatResult :=
  match RESPONSE_FORMAT name with
  | none => { value := raw, fallback := true }
  | some validate =>
    let mapped := mapRaw name raw
    if validate mapped then { value := mapped, fallback := false }
    else { value := raw, fallback := true }

/-! ## Theorems -/

/-- C7: the sanitation step removes exactly the keys whose value is `null`
(`undefined` cannot occur in parsed JSON), keeps every key with a defined
non-null value with its value unchanged and in order, and the sanitized bag
is precisely what the dispatch switch receives. -/
theorem sanitize_removes_exactly_nulls :
    (∀ (raw : List (String × JVal)) (k : String) (v : JVal),
      ((k, v) ∈ sanitizeArgs raw ↔ ((k, v) ∈ raw ∧ v ≠ JVal.jnull))
      ∧ (sanitizeArgs raw).Sublist raw)
    ∧ ∀ (env : Env) (db : DB) (u id name : String) (rawArgs : JVal),
      executeToolCall env db u ⟨id, name, .ok rawArgs⟩ =
        .ok (dispatchToolCall env db u id name (sanitizeArgs (jentries rawArgs))) := by
  constructor
  · intro raw k v
    constructor
    · simp only [sanitizeArgs, List.mem_filter]
      constructor
      · rintro ⟨h1, h2⟩
        exact ⟨h1, by cases v <;> simp_all⟩
      · rintro ⟨h1, h2⟩
        exact ⟨h1, by cases v <;> simp_all⟩
    · exact List.filter_sublist _
  · intro env db u id name rawArgs
    rfl

/-- C8: the Structured Formatter is total (formatting never fails the
request); on a missing registry schema or failed validation it returns the
raw output verbatim marked as a fallback, and on successful validation it
returns the mapped object marked as validated, so callers can distinguish
the two. -/
theorem formatter_fallback_passthrough
    (mapRaw : String → JVal → JVal) (name : String) (raw : JVal) :
    (RESPONSE_FORMAT name = none →
      formatToolResult mapRaw name raw = ⟨raw, true⟩)
    ∧ (∀ validate, RESPONSE_FORMAT name = some validate →
        validate (mapRaw name raw) = false →
        formatToolResult mapRaw name raw = ⟨raw, true⟩)
    ∧ (∀ validate, RESPONSE_FORMAT name = some validate →
        validate (mapRaw name raw) = true →
        formatToolResult mapRaw name raw = ⟨mapRaw name raw, false⟩) := by
  refine ⟨fun h => ?_, fun validate h hv => ?_, fun validate h hv => ?_⟩
  · simp [formatToolResult, h]
  · simp [formatToolResult, h, hv]
  · simp [formatToolResult, h, hv]

/-- Witness for the formatter fallback: `get_audit_log` has no registry
schema, and a bare string fails the create_task schema; both fall back to
the raw value. -/
theorem formatter_fallback_witness :
    formatToolResult (fun _ v => v) "get_audit_log" (JVal.jstr "x") =
      ⟨JVal.jstr "x", true⟩
    ∧ formatToolResult (fun _ v => v) "create_task" (JVal.jstr "x") =
      ⟨JVal.jstr "x", true⟩ :=
  ⟨(formatter_fallback_passthrough (fun _ v => v) "get_audit_log"
      (JVal.jstr "x")).1 rfl,
   (formatter_fallback_passthrough (fun _ v => v) "create_task"
      (JVal.jstr "x")).2.1 _ rfl rfl⟩

/-- C6: an invocation whose operation name is not in the catalog (and whose
argument string parses) falls through the dispatch switch to the default
branch and yields the `Unknown tool` error result as a value — never an
exception — leaving the store untouched. -/
theorem unknown_tool_yields_error_result (env : Env) (db : DB)
    (u : String) (tc : ToolCall) (rawArgs : JVal)
    (hargs : tc.arguments = .ok rawArgs) (hname : tc.name ∉ catalogNames) :
    executeToolCall env db u tc = .ok (db, ⟨tc.id, .err "Unknown tool"⟩) := by
  obtain ⟨id, name, args⟩ := tc
  simp only at hargs
  subst hargs
  simp only [catalogNames, List.mem_cons, List.mem_singleton] at hname
  push_neg at hname
  obtain ⟨h1, h2, h3, h4, h5, h6, h7, h8, h9, h10, h11, h12⟩ := hname
  simp [executeToolCall, dispatchToolCall, h1, h2, h3, h4, h5, h6, h7, h8,
    h9, h10, h12]

def envW : Env := { now := 0, dateMs := fun _ => none, briefContent := .ok none }

def dbW : DB := {}

/-- Witness: a concrete non-catalog name yields the Unknown tool result. -/
theorem unknown_tool_witness :
    executeToolCall envW dbW "u" ⟨"c1", "foo_tool", .ok (.jobj [])⟩ =
      .ok (dbW, ⟨"c1", .err "Unknown tool"⟩) :=
  unknown_tool_yields_error_result envW dbW "u"
    ⟨"c1", "foo_tool", .ok (.jobj [])⟩ (.jobj []) rfl (by decide)

/-- A rejected invocation poisons the fan-out: if some batch member's
argument parse failed, the combined result list contains a rejection. -/
lemma runBatch_has_error (env : Env) (u : String) (tc : ToolCall)
    (e : String) (he : tc.arguments = .error e) :
    ∀ (tcs : List ToolCall) (db : DB), tc ∈ tcs →
      ((runBatch env u db tcs).2.any
        (fun o => match o with | .error _ => true | .ok _ => false)) = true := by
  intro tcs
  induction tcs with
  | nil => intro db h; cases h
  | cons hd tl ih =>
    intro db h
    rcases List.mem_cons.mp h with h | h
    · subst h
      have hexec : executeToolCall env db u tc = .error e := by
        simp [executeToolCall, he]
      simp [runBatch, hexec]
    · cases hexec : executeToolCall env db u hd with
      | ok p =>
        obtain ⟨db2, r⟩ := p
        have hrec := ih db2 h
        rcases h2 : runBatch env u db2 tl with ⟨db3, rs⟩
        rw [h2] at hrec
        simp only [runBatch, hexec, h2, List.any_cons]
        simp only at hrec
        simp [hrec]
      | error e2 =>
        rcases h2 : runBatch env u db tl with ⟨db3, rs⟩
        simp [runBatch, hexec, h2]

/-- A batch whose argument strings all parse settles every invocation. -/
lemma runBatch_no_error (env : Env) (u : String) :
    ∀ (tcs : List ToolCall) (db : DB),
      (∀ tc ∈ tcs, ∃ raw, tc.arguments = .ok raw) →
      ((runBatch env u db tcs).2.any
        (fun o => match o with | .error _ => true | .ok _ => false)) = false := by
  intro tcs
  induction tcs with
  | nil => intro db _; rfl
  | cons hd tl ih =>
    intro db hall
    obtain ⟨raw, hraw⟩ := hall hd (List.mem_cons_self hd tl)
    have hexec : executeToolCall env db u hd =
        .ok (dispatchToolCall env db u hd.id hd.name
          (sanitizeArgs (jentries raw))) := by
      simp [executeToolCall, hraw]
    have hrec := ih (dispatchToolCall env db u hd.id hd.name
        (sanitizeArgs (jentries raw))).1
      (fun tc htc => hall tc (List.mem_cons_of_mem hd htc))
    rcases h2 : runBatch env u (dispatchToolCall env db u hd.id hd.name
        (sanitizeArgs (jentries raw))).1 tl with ⟨db3, rs⟩
    rw [h2] at hrec
    simp only at hrec
    rcases hd2 : dispatchToolCall env db u hd.id hd.name
        (sanitizeArgs (jentries raw)) with ⟨dbx, rx⟩
    rw [hd2] at h2
    simp only [runBatch, hexec, hd2, h2, List.any_cons]
    simp [hrec]

def tcBadC1 : ToolCall := ⟨"bad", "create_task", .error "Unexpected token o in JSON"⟩

def tcGoodC1 : ToolCall := ⟨"good", "undo_last_action", .ok (.jobj [])⟩

def callsC1 : ModelCalls := ⟨.ok ⟨none, [tcBadC1, tcGoodC1]⟩, .ok (some "done")⟩

/-- C1 counterexample: in a two-invocation batch whose first argument
string is malformed, `executeToolCall` throws the parse error instead of
returning a `success:false` Operation Result, and the request collapses to
the generic error reply with no per-invocation results — the sibling's
result is discarded and the batch is aborted. -/
theorem parse_error_aborts_batch_counterexample :
    executeToolCall envW dbW "u" tcBadC1 = .error "Unexpected token o in JSON"
    ∧ (handleMessage envW callsC1 dbW "u").2.reply = genericErrorReply
    ∧ (handleMessage envW callsC1 dbW "u").2.tool_results = none := by
  exact ⟨rfl, rfl, rfl⟩

/-- C1 (amended): a malformed argument string is fatal to the whole batch,
not only to its own invocation: the parse error escapes `executeToolCall`
(it is raised before the try block), the combined fan-out rejects, and the
outer catch answers with the generic error reply and no tool results —
sibling invocations still execute but their results are discarded. -/
theorem parse_error_aborts_batch (env : Env) (calls : ModelCalls) (db : DB)
    (u : String) (sel : Selection) (tc : ToolCall) (e : String)
    (hsel : calls.selection = .ok sel) (htc : tc ∈ sel.toolCalls)
    (he : tc.arguments = .error e) :
    executeToolCall env db u tc = .error e
    ∧ (handleMessage env calls db u).2.reply = genericErrorReply
    ∧ (handleMessage env calls db u).2.tool_results = none := by
  have h1 : executeToolCall env db u tc = .error e := by
    simp [executeToolCall, he]
  have hne : sel.toolCalls.isEmpty = false := by
    cases h : sel.toolCalls with
    | nil => rw [h] at htc; cases htc
    | cons a l => rfl
  have hany := runBatch_has_error env u tc e he sel.toolCalls db htc
  refine ⟨h1, ?_, ?_⟩ <;>
  · rcases hrb : runBatch env u db sel.toolCalls with ⟨db2, outs⟩
    rw [hrb] at hany
    simp [handleMessage, hsel, hne, hrb, hany]

/-- Witness for the amended C1 at a concrete malformed batch. -/
theorem parse_error_aborts_batch_witness :
    executeToolCall envW dbW "u" tcBadC1 = .error "Unexpected token o in JSON"
    ∧ (handleMessage envW callsC1 dbW "u").2.reply = genericErrorReply
    ∧ (handleMessage envW callsC1 dbW "u").2.tool_results = none :=
  parse_error_aborts_batch envW callsC1 dbW "u" ⟨none, [tcBadC1, tcGoodC1]⟩
    tcBadC1 "Unexpected token o in JSON" rfl (List.mem_cons_self _ _) rfl

def tcC3 : ToolCall := ⟨"g", "undo_last_action", .ok (.jobj [])⟩

def callsC3 : ModelCalls := ⟨.ok ⟨none, [tcC3]⟩, .error "model unreachable"⟩

/-- C3 counterexample: with one invocation executed and the composition
model call failing, the caller receives the generic error reply and no tool
results — not the fixed fallback string "Action completed." with the
committed results. -/
theorem composition_failure_counterexample :
    (handleMessage envW callsC3 dbW "u").2.reply = genericErrorReply
    ∧ (handleMessage envW callsC3 dbW "u").2.tool_results = none
    ∧ genericErrorReply ≠ "Action completed." := by
  refine ⟨rfl, rfl, by decide⟩

/-- C3 (amended): after a non-empty batch whose argument strings all parse,
a composition call that resolves with null or empty content degrades to the
fixed "Action completed." reply with the tool results attached; a
composition call that fails is caught by the outer handler, which returns
the generic error reply and drops the tool results. -/
theorem composition_fallback (env : Env) (calls : ModelCalls) (db : DB)
    (u : String) (sel : Selection)
    (hsel : calls.selection = .ok sel)
    (hne : sel.toolCalls ≠ [])
    (hok : ∀ tc ∈ sel.toolCalls, ∃ raw, tc.arguments = .ok raw) :
    ((calls.composition = .ok none ∨ calls.composition = .ok (some "")) →
      (handleMessage env calls db u).2.reply = "Action completed."
      ∧ ((handleMessage env calls db u).2.tool_results).isSome = true)
    ∧ (∀ e, calls.composition = .error e →
      (handleMessage env calls db u).2.reply = genericErrorReply
      ∧ (handleMessage env calls db u).2.tool_results = none) := by
  have hne2 : sel.toolCalls.isEmpty = false := by
    cases h : sel.toolCalls with
    | nil => exact absurd h hne
    | cons a l => rfl
  have hany := runBatch_no_error env u sel.toolCalls db hok
  rcases hrb : runBatch env u db sel.toolCalls with ⟨db2, outs⟩
  rw [hrb] at hany
  constructor
  · rintro (hc | hc) <;>
      simp [handleMessage, hsel, hne2, hrb, hany, hc]
  · intro e hc
    constructor <;> simp [handleMessage, hsel, hne2, hrb, hany, hc]

/-- Witness for the amended C3 at concrete model-call outcomes. -/
theorem composition_fallback_witness :
    (handleMessage envW ⟨.ok ⟨none, [tcC3]⟩, .ok none⟩ dbW "u").2.reply =
      "Action completed."
    ∧ (handleMessage envW ⟨.ok ⟨none, [tcC3]⟩, .error "down"⟩ dbW "u").2.reply =
      genericErrorReply := by
  have hok : ∀ tc ∈ [tcC3], ∃ raw, tc.arguments = Except.ok raw := by
    intro tc htc
    rw [List.mem_singleton] at htc
    subst htc
    exact ⟨.jobj [], rfl⟩
  have hne : ([tcC3] : List ToolCall) ≠ [] := by simp
  exact ⟨((composition_fallback envW ⟨.ok ⟨none, [tcC3]⟩, .ok none⟩ dbW "u"
      ⟨none, [tcC3]⟩ rfl hne hok).1 (Or.inl rfl)).1,
    ((composition_fallback envW ⟨.ok ⟨none, [tcC3]⟩, .error "down"⟩ dbW "u"
      ⟨none, [tcC3]⟩ rfl hne hok).2 "down" rfl).1⟩

def tW : Task := { id := 1, user_id := "u", content := "t", due_date := some "due" }

/-- Soundness of the risk report: every entry is flagged and is the
`riskEntryOf` image of one of the caller's stored rows. -/
lemma checkDeadlineRisks_ok_mem (dateMs : String → Option Int) (now : Int)
    (db : DB) (u : String) (args : List (String × JVal)) (out : RisksOut)
    (hout : checkDeadlineRisks dateMs now db u args = .ok out) :
    ∀ r ∈ out.risks, (r.at_risk = true ∨ r.overdue = true)
      ∧ ∃ t ∈ db.tasks, t.user_id = u
        ∧ r = riskEntryOf dateMs now
            (thresholdOf (jget args "threshold_days")) t := by
  intro r hr
  unfold checkDeadlineRisks at hout
  cases hrf : db.readFails with
  | true => simp [hrf] at hout
  | false =>
    simp only [hrf, Bool.false_eq_true, if_false] at hout
    split at hout
    · exact absurd hout (by simp)
    · rw [Except.ok.injEq] at hout
      subst hout
      rw [List.mem_filter] at hr
      obtain ⟨hmap, hflag⟩ := hr
      rw [List.mem_map] at hmap
      obtain ⟨t, htrows, rfl⟩ := hmap
      rw [List.mem_filter] at htrows
      obtain ⟨htdb, hcond⟩ := htrows
      simp only [Bool.and_eq_true, beq_iff_eq] at hcond
      refine ⟨?_, t, htdb, hcond.1.1, rfl⟩
      simpa [Bool.or_eq_true] using hflag

/-- C5: for every fetched row whose due date parses,
`days_until_due = ceil((due - now) / 86400000)`, `at_risk` holds exactly
when `0 ≤ days_until_due ≤ threshold`, `overdue` exactly when
`days_until_due < 0` (the computation is a pure function of `now`); in
particular a due date one day ahead with threshold 7 gives
`(1, at_risk, ¬overdue)` and one day past gives `(-1, overdue, ¬at_risk)`;
and every risk entry reported by `checkDeadlineRisks` is obtained by this
computation from one of the caller's stored rows. -/
theorem deadline_risk_computation :
    (∀ (dateMs : String → Option Int) (now thr : Int) (t : Task)
        (dueMs : Int), t.due_date.bind dateMs = some dueMs →
      (riskEntryOf dateMs now (some (thr : Rat)) t).days_until_due =
        some (ceilDiv (dueMs - now) 86400000)
      ∧ ((riskEntryOf dateMs now (some (thr : Rat)) t).at_risk = true ↔
          0 ≤ ceilDiv (dueMs - now) 86400000
          ∧ ceilDiv (dueMs - now) 86400000 ≤ thr)
      ∧ ((riskEntryOf dateMs now (some (thr : Rat)) t).overdue = true ↔
          ceilDiv (dueMs - now) 86400000 < 0))
    ∧ (∀ now : Int,
        riskEntryOf (fun _ => some (now + 86400000)) now (some 7) tW =
          { task_id := 1, task_title := "t", due_date := some "due",
            days_until_due := some 1, at_risk := true, overdue := false })
    ∧ (∀ now : Int,
        riskEntryOf (fun _ => some (now - 86400000)) now (some 7) tW =
          { task_id := 1, task_title := "t", due_date := some "due",
            days_until_due := some (-1), at_risk := false, overdue := true })
    ∧ (∀ (dateMs : String → Option Int) (now : Int) (db : DB) (u : String)
        (args : List (String × JVal)) (out : RisksOut),
        checkDeadlineRisks dateMs now db u args = .ok out →
        ∀ r ∈ out.risks, (r.at_risk = true ∨ r.overdue = true)
          ∧ ∃ t ∈ db.tasks, t.user_id = u
            ∧ r = riskEntryOf dateMs now
                (thresholdOf (jget args "threshold_days")) t) := by
  refine ⟨?_, ?_, ?_, ?_⟩
  · intro dateMs now thr t dueMs h
    refine ⟨by unfold riskEntryOf; rw [h]; simp, ?_, ?_⟩
    · unfold riskEntryOf
      rw [h]
      simp only [Option.map_some']
      simp only [Bool.and_eq_true, decide_eq_true_eq]
      constructor
      · rintro ⟨hle, hge⟩
        exact ⟨hge, by exact_mod_cast hle⟩
      · rintro ⟨hge, hle⟩
        exact ⟨by exact_mod_cast hle, hge⟩
    · unfold riskEntryOf
      rw [h]
      simp
  · intro now
    have h : now + 86400000 - now = 86400000 := by ring
    simp only [riskEntryOf, tW, Option.some_bind, Option.map_some', h]
    decide
  · intro now
    have h : now - 86400000 - now = -86400000 := by ring
    simp only [riskEntryOf, tW, Option.some_bind, Option.map_some', h]
    decide
  · exact fun dateMs now db u args out hout =>
      checkDeadlineRisks_ok_mem dateMs now db u args out hout

/-- Witness for the general C5 formula at one-day-ahead inputs. -/
theorem deadline_risk_computation_witness :
    (riskEntryOf (fun _ => some 86400000) 0 (some (7 : Rat)) tW).days_until_due =
      some (ceilDiv (86400000 - 0) 86400000)
    ∧ ((riskEntryOf (fun _ => some 86400000) 0 (some (7 : Rat)) tW).at_risk = true ↔
        0 ≤ ceilDiv (86400000 - 0) 86400000 ∧ ceilDiv (86400000 - 0) 86400000 ≤ 7)
    ∧ ((riskEntryOf (fun _ => some 86400000) 0 (some (7 : Rat)) tW).overdue = true ↔
        ceilDiv (86400000 - 0) 86400000 < 0) := by
  have h := deadline_risk_computation.1 (fun _ => some 86400000) 0 7 tW
    86400000 rfl
  exact_mod_cast h

lemma str_prefix_ne (p m : String) (hp : p ≠ "") : p ++ m ≠ "" := by
  intro hc
  apply hp
  have h2 := congrArg String.length hc
  rw [String.length_append] at h2
  have h0 : ("" : String).length = 0 := rfl
  rw [h0] at h2
  have h3 : p.length = 0 := by omega
  cases p with
  | mk data =>
    cases data with
    | nil => rfl
    | cons c cs => simp [String.length] at h3

lemma rethrow_ok {α : Type} (p : String) (x : Except String α) (y : α) :
    rethrow p x = .ok y ↔ x = .ok y := by
  cases x <;> simp [rethrow]

lemma rethrow_error_ne {α : Type} (p : String) (x : Except String α)
    (m : String) (hp : p ≠ "") (h : rethrow p x = .error m) : m ≠ "" := by
  cases x with
  | ok r => simp [rethrow] at h
  | error m0 =>
    simp only [rethrow, Except.error.injEq] at h
    subst h
    exact str_prefix_ne _ _ hp

lemma decodePatch_fields (p : DbPatch) (tp : TypedPatch)
    (h : decodePatch p = .ok tp) :
    decodeOpt JVal.asString p.content = .ok tp.content
    ∧ decodeOpt JVal.asString p.due_date = .ok tp.due_date
    ∧ decodeOpt JVal.asString p.priority = .ok tp.priority
    ∧ decodeOpt JVal.asStrList p.labels = .ok tp.labels
    ∧ decodeOpt JVal.asInt p.duration_minutes = .ok tp.duration_minutes
    ∧ decodeOpt JVal.asString p.notes = .ok tp.notes
    ∧ decodeOpt JVal.asString p.status = .ok tp.status := by
  unfold decodePatch at h
  iterate 7 (all_goals try split at h)
  all_goals try simp_all
  subst h
  exact ⟨rfl, rfl, rfl, rfl, rfl, rfl, rfl⟩

/-- A successful `updateTask` is exactly the scoped row map by the decoded
patch of the truthy `updates` fields. -/
lemma updateTask_ok_inv (db : DB) (u : String) (tidV : Option JVal)
    (updates : List (String × JVal)) (db2 : DB)
    (h : updateTask db u tidV updates = .ok db2) :
    ∃ tid tp,
      decodePatch (mkDbUpdates updates) = .ok tp
      ∧ db2 = { db with tasks := db.tasks.map (fun t =>
          if t.user_id == u && ((t.id : Int) == tid) then applyPatch tp t
          else t) } := by
  unfold updateTask at h
  rw [rethrow_ok] at h
  unfold dbUpdate at h
  repeat' split at h
  all_goals try simp_all
  first
  | exact ⟨_, h⟩
  | exact ⟨_, h.symm⟩

/-- A decoded column of the patch is present exactly when the source field
was truthy. -/
lemma decodeOpt_truthy_isSome {α : Type} (f : JVal → Except String α)
    (v : Option JVal) (r : Option α)
    (h : decodeOpt f (if truthyO v then v else none) = .ok r) :
    r.isSome = truthyO v := by
  cases ht : truthyO v with
  | false =>
    rw [ht] at h
    simp only [Bool.false_eq_true, if_false] at h
    unfold decodeOpt at h
    simp only [Except.ok.injEq] at h
    subst h
    rfl
  | true =>
    rw [ht] at h
    simp only [if_true] at h
    cases v with
    | none => rw [truthyO] at ht; cases ht
    | some w =>
      have h2 : Except.map some (f w) = Except.ok r := h
      cases hf : f w with
      | error m => rw [hf] at h2; simp [Except.map] at h2
      | ok a =>
        rw [hf] at h2
        simp only [Except.map, Except.ok.injEq] at h2
        subst h2
        rfl

/-- C9: a field of the update_task `set` object with a falsy value (`null`,
empty string, `0`, `false`) or no value is dropped from `dbUpdates` — the
corresponding column of every row keeps its old value — while exactly the
truthy fields are carried into the store update; the columns outside
`dbUpdates` (in particular `id`, `user_id`, `created_at`) are never
touched, and rows of other users or other ids are left unchanged. -/
theorem update_task_truthiness_frame (db : DB) (u : String)
    (tidV : Option JVal) (updates : List (String × JVal)) (db2 : DB)
    (h : updateTask db u tidV updates = .ok db2) :
    ∃ tid tp,
      decodePatch (mkDbUpdates updates) = .ok tp
      ∧ db2.tasks = db.tasks.map (fun t =>
          if t.user_id == u && ((t.id : Int) == tid) then applyPatch tp t
          else t)
      ∧ tp.content.isSome = truthyO (jget updates "title")
      ∧ tp.due_date.isSome = truthyO (jget updates "due")
      ∧ tp.priority.isSome = truthyO (jget updates "priority")
      ∧ tp.labels.isSome = truthyO (jget updates "labels")
      ∧ tp.duration_minutes.isSome = truthyO (jget updates "duration_minutes")
      ∧ tp.notes.isSome = truthyO (jget updates "notes")
      ∧ tp.status.isSome = truthyO (jget updates "status")
      ∧ (∀ t : Task,
          (applyPatch tp t).id = t.id
          ∧ (applyPatch tp t).user_id = t.user_id
          ∧ (applyPatch tp t).created_at = t.created_at
          ∧ (tp.content = none → (applyPatch tp t).content = t.content)
          ∧ (tp.due_date = none → (applyPatch tp t).due_date = t.due_date)
          ∧ (tp.priority = none → (applyPatch tp t).priority = t.priority)
          ∧ (tp.labels = none → (applyPatch tp t).labels = t.labels)
          ∧ (tp.duration_minutes = none →
              (applyPatch tp t).duration_minutes = t.duration_minutes)
          ∧ (tp.notes = none → (applyPatch tp t).notes = t.notes)
          ∧ (tp.status = none → (applyPatch tp t).status = t.status)
          ∧ (∀ s, tp.content = some s → (applyPatch tp t).content = s)
          ∧ (∀ s, tp.status = some s → (applyPatch tp t).status = some s)) := by
  obtain ⟨tid, tp, hdp, hdb⟩ := updateTask_ok_inv db u tidV updates db2 h
  obtain ⟨h1, h2, h3, h4, h5, h6, h7⟩ := decodePatch_fields _ _ hdp
  refine ⟨tid, tp, hdp, by rw [hdb], ?_, ?_, ?_, ?_, ?_, ?_, ?_, ?_⟩
  · exact decodeOpt_truthy_isSome _ _ _ h1
  · exact decodeOpt_truthy_isSome _ _ _ h2
  · exact decodeOpt_truthy_isSome _ _ _ h3
  · exact decodeOpt_truthy_isSome _ _ _ h4
  · exact decodeOpt_truthy_isSome _ _ _ h5
  · exact decodeOpt_truthy_isSome _ _ _ h6
  · exact decodeOpt_truthy_isSome _ _ _ h7
  · intro t
    refine ⟨rfl, rfl, rfl, ?_, ?_, ?_, ?_, ?_, ?_, ?_, ?_, ?_⟩ <;>
      first
      | (intro hn; simp [applyPatch, hn])
      | (intro s hs; simp [applyPatch, hs])

def dbC9 : DB :=
  { tasks := [{ id := 1, user_id := "u", content := "a",
                priority := some "P3", duration_minutes := some 60 }],
    nextId := 2 }

def updatesC9 : List (String × JVal) :=
  [("title", .jstr ""), ("priority", .jstr "P1"), ("duration_minutes", .jnum 0)]

def dbC9r : DB :=
  { tasks := [{ id := 1, user_id := "u", content := "a",
                priority := some "P1", duration_minutes := some 60 }],
    nextId := 2 }

/-- Witness: an update with an empty title, a zero duration and priority P1
only writes the priority column. -/
theorem update_task_truthiness_frame_witness :
    updateTask dbC9 "u" (some (.jstr "1")) updatesC9 = .ok dbC9r
    ∧ ∃ tid tp,
      decodePatch (mkDbUpdates updatesC9) = .ok tp
      ∧ dbC9r.tasks = dbC9.tasks.map (fun t =>
          if t.user_id == "u" && ((t.id : Int) == tid) then applyPatch tp t
          else t)
      ∧ tp.content.isSome = truthyO (jget updatesC9 "title")
      ∧ tp.due_date.isSome = truthyO (jget updatesC9 "due")
      ∧ tp.priority.isSome = truthyO (jget updatesC9 "priority")
      ∧ tp.labels.isSome = truthyO (jget updatesC9 "labels")
      ∧ tp.duration_minutes.isSome = truthyO (jget updatesC9 "duration_minutes")
      ∧ tp.notes.isSome = truthyO (jget updatesC9 "notes")
      ∧ tp.status.isSome = truthyO (jget updatesC9 "status")
      ∧ (∀ t : Task,
          (applyPatch tp t).id = t.id
          ∧ (applyPatch tp t).user_id = t.user_id
          ∧ (applyPatch tp t).created_at = t.created_at
          ∧ (tp.content = none → (applyPatch tp t).content = t.content)
          ∧ (tp.due_date = none → (applyPatch tp t).due_date = t.due_date)
          ∧ (tp.priority = none → (applyPatch tp t).priority = t.priority)
          ∧ (tp.labels = none → (applyPatch tp t).labels = t.labels)
          ∧ (tp.duration_minutes = none →
              (applyPatch tp t).duration_minutes = t.duration_minutes)
          ∧ (tp.notes = none → (applyPatch tp t).notes = t.notes)
          ∧ (tp.status = none → (applyPatch tp t).status = t.status)
          ∧ (∀ s, tp.content = some s → (applyPatch tp t).content = s)
          ∧ (∀ s, tp.status = some s → (applyPatch tp t).status = some s)) :=
  ⟨by rfl, update_task_truthiness_frame dbC9 "u" (some (.jstr "1"))
    updatesC9 dbC9r (by rfl)⟩

/-- A successful `deleteTask` is exactly the scoped row filter. -/
lemma deleteTask_ok_inv (db : DB) (u : String) (tidV : Option JVal) (db2 : DB)
    (h : deleteTask db u tidV = .ok db2) :
    ∃ tid, db2 =
      { db with
        tasks := db.tasks.filter
          (fun t => !(t.user_id == u && ((t.id : Int) == tid))) } := by
  unfold deleteTask at h
  rw [rethrow_ok] at h
  unfold dbDelete at h
  repeat' split at h
  all_goals try simp_all
  first
  | exact ⟨_, h⟩
  | exact ⟨_, h.symm⟩

/-- The archive branch of one bulk iteration in computed form. -/
lemma bulkStep_archive (db : DB) (u : String) (p : Option JVal) (v : JVal) :
    bulkStep db u (some "archive") p v =
      match v.asTaskId with
      | .error m => .error ("Failed to update task: " ++ m)
      | .ok tid =>
        if db.failIds.any (fun i => ((i : Int) == tid)) then
          .error ("Failed to update task: " ++ dbErrMsg)
        else .ok { db with tasks := db.tasks.map (fun t =>
          if t.user_id == u && ((t.id : Int) == tid) then
            { t with status := some "archived" } else t) } := by
  have hdp : decodePatch (mkDbUpdates [("status", JVal.jstr "archived")]) =
      .ok { status := some "archived" } := by rfl
  unfold bulkStep updateTask dbUpdate
  cases hv : v.asTaskId with
  | error m => simp [hv, rethrow]
  | ok tid =>
    simp only [hv, hdp]
    by_cases hf : (db.failIds.any fun i => ((i : Int) == tid)) = true
    · simp [hf, rethrow]
    · simp only [Bool.not_eq_true] at hf
      simp [hf, rethrow]
      intro a _
      split <;> rfl

/-- Every target is visited: the final counts grow by exactly the number of
targets, and one error message is appended per failed target. -/
lemma bulkLoop_counts (u : String) (op : Option String) (p : Option JVal) :
    ∀ (xs : List JVal) (db : DB) (acc : BulkResults),
      ((bulkLoop u op p db xs acc).2.success
          + (bulkLoop u op p db xs acc).2.failed
        = acc.success + acc.failed + xs.length)
      ∧ ((bulkLoop u op p db xs acc).2.errors.length + acc.failed
        = (bulkLoop u op p db xs acc).2.failed + acc.errors.length) := by
  intro xs
  induction xs with
  | nil =>
    intro db acc
    constructor
    · simp [bulkLoop]
    · simp [bulkLoop]
      omega
  | cons x rest ih =>
    intro db acc
    cases hstep : bulkStep db u op p x with
    | ok db2 =>
      have hr := ih db2 { acc with success := acc.success + 1 }
      have e1 : ({ acc with success := acc.success + 1 } : BulkResults).success
          = acc.success + 1 := rfl
      have e2 : ({ acc with success := acc.success + 1 } : BulkResults).failed
          = acc.failed := rfl
      have e3 : ({ acc with success := acc.success + 1 } : BulkResults).errors
          = acc.errors := rfl
      rw [e1, e2, e3] at hr
      simp only [bulkLoop, hstep, List.length_cons]
      omega
    | error m =>
      have hr := ih db
        { acc with
          failed := acc.failed + 1
          errors := acc.errors ++ ["Task " ++ x.display ++ ": " ++ m] }
      have e1 : ({ acc with
          failed := acc.failed + 1
          errors := acc.errors ++ ["Task " ++ x.display ++ ": " ++ m] } :
            BulkResults).success = acc.success := rfl
      have e2 : ({ acc with
          failed := acc.failed + 1
          errors := acc.errors ++ ["Task " ++ x.display ++ ": " ++ m] } :
            BulkResults).failed = acc.failed + 1 := rfl
      have e3 : ({ acc with
          failed := acc.failed + 1
          errors := acc.errors ++ ["Task " ++ x.display ++ ": " ++ m] } :
            BulkResults).errors
          = acc.errors ++ ["Task " ++ x.display ++ ": " ++ m] := rfl
      rw [e1, e2, e3, List.length_append] at hr
      simp only [List.length_singleton] at hr
      simp only [bulkLoop, hstep, List.length_cons]
      omega

/-- An archive update establishes the archived status on every row of the
target (user, id). -/
lemma archived_after_map (u : String) (tid : Int) (tasks : List Task) :
    ∀ t ∈ tasks.map (fun t0 =>
      if t0.user_id == u && ((t0.id : Int) == tid) then
        { t0 with status := some "archived" } else t0),
      t.user_id = u → ((t.id : Int) = tid) → t.status = some "archived" := by
  intro t ht hu hid
  rw [List.mem_map] at ht
  obtain ⟨t0, _, rfl⟩ := ht
  by_cases hc : (t0.user_id == u && ((t0.id : Int) == tid)) = true
  · rw [if_pos hc]
  · rw [if_neg hc] at hu hid ⊢
    exact absurd (by simp [hu, hid]) hc

/-- An archive update of any target preserves the archived status already
established on the rows of another (or the same) target. -/
lemma archive_map_keep (u u2 : String) (tid tid2 : Int) (tasks : List Task)
    (hP : ∀ t ∈ tasks, t.user_id = u → ((t.id : Int) = tid) →
      t.status = some "archived") :
    ∀ t ∈ tasks.map (fun t0 =>
      if t0.user_id == u2 && ((t0.id : Int) == tid2) then
        { t0 with status := some "archived" } else t0),
      t.user_id = u → ((t.id : Int) = tid) → t.status = some "archived" := by
  intro t ht hu hid
  rw [List.mem_map] at ht
  obtain ⟨t0, ht0, rfl⟩ := ht
  by_cases hc : (t0.user_id == u2 && ((t0.id : Int) == tid2)) = true
  · rw [if_pos hc]
  · rw [if_neg hc] at hu hid ⊢
    exact hP t0 ht0 hu hid

/-- The archive invariant of the bulk loop: a target id that is free of
injected store failures ends with all its rows of this user archived, no
matter which other targets fail; and once established the property is kept
by the remaining iterations. -/
lemma bulkLoop_archive_durable (u : String) (p : Option JVal) :
    ∀ (xs : List JVal) (db : DB) (acc : BulkResults) (tid : Int),
      (db.failIds.any (fun i => ((i : Int) == tid))) = false →
      ((∃ v ∈ xs, v.asTaskId = .ok tid)
        ∨ (∀ t ∈ db.tasks, t.user_id = u → ((t.id : Int) = tid) →
            t.status = some "archived")) →
      ∀ t ∈ (bulkLoop u (some "archive") p db xs acc).1.tasks,
        t.user_id = u → ((t.id : Int) = tid) → t.status = some "archived" := by
  intro xs
  induction xs with
  | nil =>
    intro db acc tid _ hdisj t ht hu hid
    rcases hdisj with ⟨v, hv, _⟩ | hP
    · cases hv
    · exact hP t ht hu hid
  | cons x rest ih =>
    intro db acc tid hfail hdisj
    cases hstep : bulkStep db u (some "archive") p x with
    | ok db2 =>
      have hstep2 := hstep
      rw [bulkStep_archive] at hstep2
      cases hx : x.asTaskId with
      | error m => rw [hx] at hstep2; simp at hstep2
      | ok tid2 =>
        rw [hx] at hstep2
        have hstep3 : (if (db.failIds.any fun i => ((i : Int) == tid2)) = true
            then (Except.error ("Failed to update task: " ++ dbErrMsg) :
              Except String DB)
            else .ok { db with tasks := db.tasks.map (fun t =>
              if t.user_id == u && ((t.id : Int) == tid2) then
                { t with status := some "archived" } else t) }) =
            .ok db2 := hstep2
        by_cases hf2 : (db.failIds.any fun i => ((i : Int) == tid2)) = true
        · rw [if_pos hf2] at hstep3; simp at hstep3
        · rw [if_neg hf2] at hstep3
          simp only [Except.ok.injEq] at hstep3
          subst hstep3
          simp only [bulkLoop, hstep]
          refine ih { db with tasks := db.tasks.map (fun t =>
              if t.user_id == u && ((t.id : Int) == tid2) then
                { t with status := some "archived" } else t) }
            { acc with success := acc.success + 1 } tid hfail ?_
          rcases hdisj with ⟨v, hv, hvtid⟩ | hP
          · rcases List.mem_cons.mp hv with rfl | hv2
            · -- the visited target is ours: the archive just happened
              rw [hx] at hvtid
              simp only [Except.ok.injEq] at hvtid
              subst hvtid
              exact Or.inr (archived_after_map u tid2 db.tasks)
            · exact Or.inl ⟨v, hv2, hvtid⟩
          · exact Or.inr (archive_map_keep u u tid tid2 db.tasks hP)
    | error m =>
      simp only [bulkLoop, hstep]
      apply ih db _ tid hfail
      rcases hdisj with ⟨v, hv, hvtid⟩ | hP
      · rcases List.mem_cons.mp hv with rfl | hv2
        · -- our target cannot fail: its id decodes and is not in failIds
          exfalso
          rw [bulkStep_archive, hvtid] at hstep
          have hstep3 : (if (db.failIds.any fun i => ((i : Int) == tid)) = true
              then (Except.error ("Failed to update task: " ++ dbErrMsg) :
                Except String DB)
              else .ok { db with tasks := db.tasks.map (fun t =>
                if t.user_id == u && ((t.id : Int) == tid) then
                  { t with status := some "archived" } else t) }) =
              .error m := hstep
          rw [if_neg (by simp [hfail])] at hstep3
          simp at hstep3
        · exact Or.inl ⟨v, hv2, hvtid⟩
      · exact Or.inr hP

/-- Computed form of `bulkUpdateTasks` on a non-empty id array. -/
lemma bulkUpdateTasks_arr (db : DB) (u : String)
    (args : List (String × JVal)) (xs : List JVal)
    (hids : jget args "task_ids" = some (.jarr xs)) (hne : xs ≠ []) :
    bulkUpdateTasks db u args =
      .ok (bulkLoop u
        (match jget args "operation" with
         | some (.jstr s) => some s
         | _ => none)
        (jget args "params") db xs {}) := by
  have hlen : (xs.length == 0) = false := by
    cases xs with
    | nil => exact absurd rfl hne
    | cons a l => rfl
  unfold bulkUpdateTasks
  simp only [hids, hlen, Bool.false_eq_true, if_false]

/-- C4: a bulk_update_tasks call with a non-empty array of N target ids
visits all N targets, catches each per-target failure and continues; the
result reports counters with success + failed = N and exactly one error
entry per failed target, and (for the archive operation) every target id
free of store failures is durably updated no matter which other targets
fail. -/
theorem bulk_update_partial_success (db : DB) (u : String)
    (args : List (String × JVal)) (xs : List JVal)
    (hids : jget args "task_ids" = some (.jarr xs)) (hne : xs ≠ []) :
    ∃ db2 r, bulkUpdateTasks db u args = .ok (db2, r)
      ∧ r.success + r.failed = xs.length
      ∧ r.errors.length = r.failed
      ∧ (jget args "operation" = some (.jstr "archive") →
          ∀ v ∈ xs, ∀ tid : Int, v.asTaskId = .ok tid →
            (db.failIds.any (fun i => ((i : Int) == tid))) = false →
            ∀ t ∈ db2.tasks, t.user_id = u → ((t.id : Int) = tid) →
              t.status = some "archived") := by
  have hcomp := bulkUpdateTasks_arr db u args xs hids hne
  rcases hbl : bulkLoop u
      (match jget args "operation" with
       | some (.jstr s) => some s
       | _ => none)
      (jget args "params") db xs {} with ⟨db2, r⟩
  rw [hbl] at hcomp
  have hc := bulkLoop_counts u
    (match jget args "operation" with
     | some (.jstr s) => some s
     | _ => none)
    (jget args "params") xs db {}
  rw [hbl] at hc
  have e1 : ({} : BulkResults).success = 0 := rfl
  have e2 : ({} : BulkResults).failed = 0 := rfl
  have e3 : ({} : BulkResults).errors = ([] : List String) := rfl
  rw [e1, e2, e3] at hc
  simp only [List.length_nil] at hc
  refine ⟨db2, r, hcomp, by omega, by omega, ?_⟩
  intro hop v hv tid htid hfail t ht hu hid
  rw [hop] at hbl
  have hbl2 : bulkLoop u (some "archive") (jget args "params") db xs {} =
      (db2, r) := hbl
  have hd := bulkLoop_archive_durable u (jget args "params") xs db {} tid
    hfail (Or.inl ⟨v, hv, htid⟩)
  rw [hbl2] at hd
  exact hd t ht hu hid

def dbC4 : DB :=
  { tasks := [
      { id := 1, user_id := "u", content := "a" },
      { id := 2, user_id := "u", content := "b" },
      { id := 3, user_id := "u", content := "c" },
      { id := 4, user_id := "v", content := "other" }],
    nextId := 5, failIds := [2] }

def argsC4 : List (String × JVal) :=
  [("task_ids", .jarr [.jstr "1", .jstr "2", .jstr "3"]),
   ("operation", .jstr "archive")]

/-- Witness: three archive targets with one store failure injected on id 2
still produce a full report and durably archive ids 1 and 3. -/
theorem bulk_update_partial_success_witness :
    ∃ db2 r, bulkUpdateTasks dbC4 "u" argsC4 = .ok (db2, r)
      ∧ r.success + r.failed = 3
      ∧ r.errors.length = r.failed
      ∧ (jget argsC4 "operation" = some (.jstr "archive") →
          ∀ v ∈ [JVal.jstr "1", JVal.jstr "2", JVal.jstr "3"],
            ∀ tid : Int, v.asTaskId = .ok tid →
            (dbC4.failIds.any (fun i => ((i : Int) == tid))) = false →
            ∀ t ∈ db2.tasks, t.user_id = "u" → ((t.id : Int) = tid) →
              t.status = some "archived") :=
  bulk_update_partial_success dbC4 "u" argsC4
    [JVal.jstr "1", JVal.jstr "2", JVal.jstr "3"] rfl (by simp)

/-- Environment well-formedness: provider rejections carry a non-empty
`error.message` (the Error objects thrown by the model client). -/
def EnvWF (env : Env) : Prop :=
  ∀ e, env.briefContent = .error e → e ≠ ""

lemma addTask_error_ne (db : DB) (u : String)
    (a b c d e f : Option JVal) (m : String)
    (h : addTask db u a b c d e f = .error m) : m ≠ "" := by
  unfold addTask at h
  exact rethrow_error_ne _ _ _ (by decide) h

lemma updateTask_error_ne (db : DB) (u : String) (tidV : Option JVal)
    (updates : List (String × JVal)) (m : String)
    (h : updateTask db u tidV updates = .error m) : m ≠ "" := by
  unfold updateTask at h
  exact rethrow_error_ne _ _ _ (by decide) h

lemma deleteTask_error_ne (db : DB) (u : String) (tidV : Option JVal)
    (m : String) (h : deleteTask db u tidV = .error m) : m ≠ "" := by
  unfold deleteTask at h
  exact rethrow_error_ne _ _ _ (by decide) h

lemma listTasks_error_ne (db : DB) (u : String) (filter sortArg : Option JVal)
    (m : String) (h : listTasksWithFilters db u filter sortArg = .error m) :
    m ≠ "" := by
  unfold listTasksWithFilters at h
  dsimp only at h
  split at h
  case h_3 =>
    simp only [Except.error.injEq] at h
    subst h
    decide
  all_goals
    cases hq : listQuery db u filter (sortArg.getD (.jstr "due_asc")) with
    | ok l => rw [hq] at h; simp [Except.mapError] at h
    | error m0 =>
      rw [hq] at h
      simp only [Except.mapError, Except.error.injEq] at h
      subst h
      exact str_prefix_ne _ _ (by decide)

lemma checkDeadlineRisks_error_ne (dm : String → Option Int) (now : Int)
    (db : DB) (u : String) (args : List (String × JVal)) (m : String)
    (h : checkDeadlineRisks dm now db u args = .error m) : m ≠ "" := by
  unfold checkDeadlineRisks at h
  dsimp only at h
  split at h
  · simp only [Except.error.injEq] at h
    subst h
    exact str_prefix_ne _ _ (by decide)
  · split at h
    · rename_i m1 heq
      simp only [Except.error.injEq] at h
      subst h
      split at heq
      · rename_i xs hjget
        split at heq
        · cases hmm : xs.mapM JVal.asTaskId with
          | ok l =>
            rw [hmm] at heq
            simp [Except.map, Except.mapError] at heq
          | error m0 =>
            rw [hmm] at heq
            simp only [Except.map, Except.mapError, Except.error.injEq] at heq
            subst heq
            exact str_prefix_ne _ _ (by decide)
        · exact absurd heq (by simp)
      · split at heq
        · simp only [Except.error.injEq] at heq
          subst heq
          exact str_prefix_ne _ _ (by decide)
        · exact absurd heq (by simp)
      · exact absurd heq (by simp)
    · exact absurd h (by simp)

lemma calcScore_error_ne (db : DB) (u : String) (taskId weights : Option JVal)
    (m : String) (h : calculatePriorityScore db u taskId weights = .error m) :
    m ≠ "" := by
  unfold calculatePriorityScore at h
  split at h
  · rename_i m1 heq
    simp only [Except.error.injEq] at h
    subst h
    cases hq : singleTaskFetch db u taskId with
    | ok t => rw [hq] at heq; simp [Except.mapError] at heq
    | error m0 =>
      rw [hq] at heq
      simp only [Except.mapError, Except.error.injEq] at heq
      subst heq
      exact str_prefix_ne _ _ (by decide)
  · simp at h

lemma bulk_error_ne (db : DB) (u : String) (args : List (String × JVal))
    (m : String) (h : bulkUpdateTasks db u args = .error m) : m ≠ "" := by
  unfold bulkUpdateTasks at h
  dsimp only at h
  split at h
  · split at h
    · simp only [Except.error.injEq] at h
      subst h
      decide
    · simp at h
  · split at h
    · simp only [Except.error.injEq] at h
      subst h
      decide
    · simp only [Except.error.injEq] at h
      subst h
      decide
  · simp only [Except.error.injEq] at h
    subst h
    decide

lemma brief_error_inv (bc : Except String (Option String))
    (inp : Option JVal) (options : List (String × JVal)) (m : String)
    (h : generateTaskBrief bc inp options = .error m) : bc = .error m := by
  unfold generateTaskBrief at h
  cases hbc : bc with
  | error m0 =>
    rw [hbc] at h
    have h2 : (Except.error m0 : Except String Brief) = .error m := h
    simp only [Except.error.injEq] at h2
    rw [h2]
  | ok c =>
    rw [hbc] at h
    exact absurd (h : Except.ok _ = Except.error m) (by simp)

/-- The success payload shape declared for each operation: the constructor
of `ToolOutput` built by that operation's dispatch case. -/
def outputMatches : String → ToolOutput → Prop
  | "create_task", .createTask _ _ => True
  | "update_task", .updateTaskOk _ => True
  | "list_tasks", .listTasks _ _ => True
  | "schedule_tasks_to_calendar", .schedule _ _ => True
  | "reschedule_tasks", .reschedule _ => True
  | "check_deadline_risks", .risks _ => True
  | "calculate_priority_score", .score _ _ => True
  | "bulk_update_tasks", .bulk _ => True
  | "generate_task_brief", .brief _ => True
  | "undo_last_action", .undo _ => True
  | "ask_clarification", .clarification _ _ _ _ => True
  | _, _ => False

/-! Computed forms of the dispatch switch at each catalog name (the string
comparisons of the if chain reduce definitionally on a literal name). -/

lemma dispatch_create (env : Env) (db : DB) (u callId : String)
    (args : List (String × JVal)) :
    dispatchToolCall env db u callId "create_task" args =
      match addTask db u (jget args "title") (jget args "due")
          (jget args "priority") (jget args "labels")
          (jget args "duration_minutes") (jget args "notes") with
      | .ok (db2, idn) =>
        (db2, ⟨callId, .createTask idn
          ("Task \"" ++ displayO (jget args "title") ++ "\" created successfully")⟩)
      | .error m => (db, ⟨callId, .err m⟩) := rfl

lemma dispatch_update (env : Env) (db : DB) (u callId : String)
    (args : List (String × JVal)) :
    dispatchToolCall env db u callId "update_task" args =
      match jget args "set" with
      | none => (db, ⟨callId, .err "Cannot read properties of undefined"⟩)
      | some setV =>
        match updateTask db u
            (if truthyO (jget args "task_id") then jget args "task_id"
             else jget args "fuzzy_key")
            (jfields setV) with
        | .ok db2 => (db2, ⟨callId, .updateTaskOk "Task updated successfully"⟩)
        | .error m => (db, ⟨callId, .err m⟩) := rfl

lemma dispatch_list (env : Env) (db : DB) (u callId : String)
    (args : List (String × JVal)) :
    dispatchToolCall env db u callId "list_tasks" args =
      match listTasksWithFilters db u (jget args "filter") (jget args "sort") with
      | .ok tasks => (db, ⟨callId, .listTasks tasks tasks.length⟩)
      | .error m => (db, ⟨callId, .err m⟩) := rfl

lemma dispatch_risks (env : Env) (db : DB) (u callId : String)
    (args : List (String × JVal)) :
    dispatchToolCall env db u callId "check_deadline_risks" args =
      match checkDeadlineRisks env.dateMs env.now db u args with
      | .ok r => (db, ⟨callId, .risks r⟩)
      | .error m => (db, ⟨callId, .err m⟩) := rfl

lemma dispatch_score (env : Env) (db : DB) (u callId : String)
    (args : List (String × JVal)) :
    dispatchToolCall env db u callId "calculate_priority_score" args =
      match calculatePriorityScore db u (jget args "task_id")
          (jget args "weights") with
      | .ok s => (db, ⟨callId, .score s s.explanation⟩)
      | .error m => (db, ⟨callId, .err m⟩) := rfl

lemma dispatch_bulk (env : Env) (db : DB) (u callId : String)
    (args : List (String × JVal)) :
    dispatchToolCall env db u callId "bulk_update_tasks" args =
      match bulkUpdateTasks db u args with
      | .ok (db2, r) => (db2, ⟨callId, .bulk r⟩)
      | .error m => (db, ⟨callId, .err m⟩) := rfl

lemma dispatch_brief (env : Env) (db : DB) (u callId : String)
    (args : List (String × JVal)) :
    dispatchToolCall env db u callId "generate_task_brief" args =
      match generateTaskBrief env.briefContent (jget args "short_input") args with
      | .ok b => (db, ⟨callId, .brief b⟩)
      | .error m => (db, ⟨callId, .err m⟩) := rfl

/-- C2: for every invocation whose operation name is in the catalog and
whose argument string parses (schema conformance is not even needed),
`executeToolCall` returns a settled Operation Result carrying the
invocation's id — never an exception past the Executor boundary — whose
output is either the success payload constructor declared for that
operation or a `success:false` result with a non-empty error string. -/
theorem executor_total_clean (env : Env) (db : DB) (u : String)
    (tc : ToolCall) (rawArgs : JVal)
    (hargs : tc.arguments = .ok rawArgs)
    (hname : tc.name ∈ catalogNames)
    (hwf : EnvWF env) :
    ∃ db2 res, executeToolCall env db u tc = .ok (db2, res)
      ∧ res.tool_call_id = tc.id
      ∧ (outputMatches tc.name res.output
        ∨ ∃ m, res.output = .err m ∧ m ≠ "") := by
  obtain ⟨id, name, args⟩ := tc
  simp only at hargs
  subst hargs
  have hex : executeToolCall env db u ⟨id, name, .ok rawArgs⟩ =
      .ok (dispatchToolCall env db u id name
        (sanitizeArgs (jentries rawArgs))) := rfl
  simp only [catalogNames, List.mem_cons, List.not_mem_nil, or_false] at hname
  rcases hname with rfl | rfl | rfl | rfl | rfl | rfl | rfl | rfl | rfl |
    rfl | rfl | rfl
  · -- create_task
    cases ha : addTask db u (jget (sanitizeArgs (jentries rawArgs)) "title")
        (jget (sanitizeArgs (jentries rawArgs)) "due")
        (jget (sanitizeArgs (jentries rawArgs)) "priority")
        (jget (sanitizeArgs (jentries rawArgs)) "labels")
        (jget (sanitizeArgs (jentries rawArgs)) "duration_minutes")
        (jget (sanitizeArgs (jentries rawArgs)) "notes") with
    | ok p =>
      obtain ⟨dbx, idn⟩ := p
      refine ⟨dbx, ⟨id, .createTask idn
        ("Task \"" ++ displayO (jget (sanitizeArgs (jentries rawArgs)) "title")
          ++ "\" created successfully")⟩, ?_, rfl, Or.inl trivial⟩
      rw [hex, dispatch_create, ha]
    | error m =>
      refine ⟨db, ⟨id, .err m⟩, ?_, rfl,
        Or.inr ⟨m, rfl, addTask_error_ne _ _ _ _ _ _ _ _ _ ha⟩⟩
      rw [hex, dispatch_create, ha]
  · -- update_task
    cases hset : jget (sanitizeArgs (jentries rawArgs)) "set" with
    | none =>
      refine ⟨db, ⟨id, .err "Cannot read properties of undefined"⟩, ?_, rfl,
        Or.inr ⟨_, rfl, by decide⟩⟩
      rw [hex, dispatch_update, hset]
    | some setV =>
      cases hup : updateTask db u
          (if truthyO (jget (sanitizeArgs (jentries rawArgs)) "task_id") then
            jget (sanitizeArgs (jentries rawArgs)) "task_id"
           else jget (sanitizeArgs (jentries rawArgs)) "fuzzy_key")
          (jfields setV) with
      | ok dbx =>
        refine ⟨dbx, ⟨id, .updateTaskOk "Task updated successfully"⟩, ?_, rfl,
          Or.inl trivial⟩
        rw [hex, dispatch_update]
        simp only [hset, hup]
      | error m =>
        refine ⟨db, ⟨id, .err m⟩, ?_, rfl,
          Or.inr ⟨m, rfl, updateTask_error_ne _ _ _ _ _ hup⟩⟩
        rw [hex, dispatch_update]
        simp only [hset, hup]
  · -- list_tasks
    cases hl : listTasksWithFilters db u
        (jget (sanitizeArgs (jentries rawArgs)) "filter")
        (jget (sanitizeArgs (jentries rawArgs)) "sort") with
    | ok tasks =>
      refine ⟨db, ⟨id, .listTasks tasks tasks.length⟩, ?_, rfl, Or.inl trivial⟩
      rw [hex, dispatch_list, hl]
    | error m =>
      refine ⟨db, ⟨id, .err m⟩, ?_, rfl,
        Or.inr ⟨m, rfl, listTasks_error_ne _ _ _ _ _ hl⟩⟩
      rw [hex, dispatch_list, hl]
  · -- schedule_tasks_to_calendar
    exact ⟨db, ⟨id, .schedule
      (scheduleTasksToCalendar (sanitizeArgs (jentries rawArgs)))
      (jget (sanitizeArgs (jentries rawArgs)) "preview_only")⟩,
      (by rw [hex]; rfl), rfl, Or.inl trivial⟩
  · -- reschedule_tasks
    exact ⟨db, ⟨id, .reschedule
      (rescheduleTasks (sanitizeArgs (jentries rawArgs)))⟩,
      (by rw [hex]; rfl), rfl, Or.inl trivial⟩
  · -- check_deadline_risks
    cases hr : checkDeadlineRisks env.dateMs env.now db u
        (sanitizeArgs (jentries rawArgs)) with
    | ok r =>
      refine ⟨db, ⟨id, .risks r⟩, ?_, rfl, Or.inl trivial⟩
      rw [hex, dispatch_risks, hr]
    | error m =>
      refine ⟨db, ⟨id, .err m⟩, ?_, rfl,
        Or.inr ⟨m, rfl, checkDeadlineRisks_error_ne _ _ _ _ _ _ hr⟩⟩
      rw [hex, dispatch_risks, hr]
  · -- calculate_priority_score
    cases hs : calculatePriorityScore db u
        (jget (sanitizeArgs (jentries rawArgs)) "task_id")
        (jget (sanitizeArgs (jentries rawArgs)) "weights") with
    | ok sc =>
      refine ⟨db, ⟨id, .score sc sc.explanation⟩, ?_, rfl, Or.inl trivial⟩
      rw [hex, dispatch_score, hs]
    | error m =>
      refine ⟨db, ⟨id, .err m⟩, ?_, rfl,
        Or.inr ⟨m, rfl, calcScore_error_ne _ _ _ _ _ hs⟩⟩
      rw [hex, dispatch_score, hs]
  · -- bulk_update_tasks
    cases hb : bulkUpdateTasks db u (sanitizeArgs (jentries rawArgs)) with
    | ok p =>
      obtain ⟨dbx, r⟩ := p
      refine ⟨dbx, ⟨id, .bulk r⟩, ?_, rfl, Or.inl trivial⟩
      rw [hex, dispatch_bulk, hb]
    | error m =>
      refine ⟨db, ⟨id, .err m⟩, ?_, rfl,
        Or.inr ⟨m, rfl, bulk_error_ne _ _ _ _ hb⟩⟩
      rw [hex, dispatch_bulk, hb]
  · -- generate_task_brief
    cases hg : generateTaskBrief env.briefContent
        (jget (sanitizeArgs (jentries rawArgs)) "short_input")
        (sanitizeArgs (jentries rawArgs)) with
    | ok b =>
      refine ⟨db, ⟨id, .brief b⟩, ?_, rfl, Or.inl trivial⟩
      rw [hex, dispatch_brief, hg]
    | error m =>
      refine ⟨db, ⟨id, .err m⟩, ?_, rfl,
        Or.inr ⟨m, rfl, hwf m (brief_error_inv _ _ _ _ hg)⟩⟩
      rw [hex, dispatch_brief, hg]
  · -- undo_last_action
    exact ⟨db, ⟨id, .undo (undoLastAction
      (jget (sanitizeArgs (jentries rawArgs)) "action_id"))⟩,
      (by rw [hex]; rfl), rfl, Or.inl trivial⟩
  · -- get_audit_log: in the catalog, but its dispatch case is commented out
    exact ⟨db, ⟨id, .err "Unknown tool"⟩, (by rw [hex]; rfl), rfl,
      Or.inr ⟨_, rfl, by decide⟩⟩
  · -- ask_clarification
    exact ⟨db, ⟨id, .clarification true
      (jget (sanitizeArgs (jentries rawArgs)) "missing_fields")
      (jget (sanitizeArgs (jentries rawArgs)) "context")
      (jget (sanitizeArgs (jentries rawArgs)) "suggestions")⟩,
      (by rw [hex]; rfl), rfl, Or.inl trivial⟩

/-- Witness: a concrete catalog invocation settles cleanly. -/
theorem executor_total_clean_witness :
    ∃ db2 res, executeToolCall envW dbW "u"
        ⟨"c2", "undo_last_action", .ok (.jobj [])⟩ = .ok (db2, res)
      ∧ res.tool_call_id = "c2"
      ∧ (outputMatches "undo_last_action" res.output
        ∨ ∃ m, res.output = .err m ∧ m ≠ "") :=
  executor_total_clean envW dbW "u" ⟨"c2", "undo_last_action", .ok (.jobj [])⟩
    (.jobj []) rfl (by decide)
    (by intro e he; exact absurd he (by simp [envW]))

/-- The rows belonging to users other than `u` — the frame every operation
must leave untouched. -/
def othersOf (u : String) (db : DB) : List Task :=
  db.tasks.filter (fun t => !(t.user_id == u))

/-- A successful `addTask` appends exactly one row carrying the caller's
`user_id`. -/
lemma addTask_ok_inv (db : DB) (u : String) (a b c d e f : Option JVal)
    (db2 : DB) (idn : Nat)
    (h : addTask db u a b c d e f = .ok (db2, idn)) :
    ∃ t : Task, t.user_id = u
      ∧ db2 = { db with tasks := db.tasks ++ [t], nextId := db.nextId + 1 } := by
  unfold addTask at h
  rw [rethrow_ok] at h
  unfold dbInsert at h
  repeat' split at h
  all_goals try simp_all
  all_goals
    obtain ⟨h1, h2⟩ := h
  all_goals
    subst h2
  all_goals
    exact ⟨_, rfl, h1.symm⟩

lemma filter_not_user_map (u : String) (l : List Task) (f : Task → Task)
    (hid : ∀ t, (f t).user_id = t.user_id)
    (hfix : ∀ t, t.user_id ≠ u → f t = t) :
    (l.map f).filter (fun t => !(t.user_id == u)) =
      l.filter (fun t => !(t.user_id == u)) := by
  induction l with
  | nil => rfl
  | cons t rest ih =>
    by_cases hu : t.user_id = u
    · simp [List.filter_cons, hid, hu, ih]
    · simp [List.filter_cons, hfix t hu, hu, ih]

/-- A successful `updateTask` leaves every other user's rows unchanged. -/
lemma updateTask_frame (db : DB) (u : String) (tidV : Option JVal)
    (updates : List (String × JVal)) (db2 : DB)
    (h : updateTask db u tidV updates = .ok db2) :
    othersOf u db2 = othersOf u db := by
  obtain ⟨tid, tp, _, hdb⟩ := updateTask_ok_inv db u tidV updates db2 h
  subst hdb
  unfold othersOf
  apply filter_not_user_map
  · intro t
    by_cases hc : (t.user_id == u && ((t.id : Int) == tid)) = true
    · rw [if_pos hc]; rfl
    · rw [if_neg hc]
  · intro t hu
    have hc : (t.user_id == u && ((t.id : Int) == tid)) = false := by
      simp [hu]
    rw [hc]
    simp

/-- A successful `deleteTask` leaves every other user's rows unchanged. -/
lemma deleteTask_frame (db : DB) (u : String) (tidV : Option JVal) (db2 : DB)
    (h : deleteTask db u tidV = .ok db2) :
    othersOf u db2 = othersOf u db := by
  obtain ⟨tid, hdb⟩ := deleteTask_ok_inv db u tidV db2 h
  subst hdb
  unfold othersOf
  rw [List.filter_filter]
  apply List.filter_congr
  intro t _
  by_cases hu : t.user_id = u
  · simp [hu]
  · simp [hu]

/-- One bulk iteration leaves every other user's rows unchanged. -/
lemma bulkStep_frame (db : DB) (u : String) (op : Option String)
    (p : Option JVal) (v : JVal) (db2 : DB)
    (h : bulkStep db u op p v = .ok db2) :
    othersOf u db2 = othersOf u db := by
  unfold bulkStep at h
  split at h
  · -- relabel
    split at h
    · split at h
      · split at h
        · exact absurd h (by simp)
        · exact updateTask_frame _ _ _ _ _ h
      · simp only [Except.ok.injEq] at h
        subst h
        rfl
    · simp only [Except.ok.injEq] at h
      subst h
      rfl
  · exact updateTask_frame _ _ _ _ _ h
  · exact deleteTask_frame _ _ _ _ h
  · simp only [Except.ok.injEq] at h
    subst h
    rfl

lemma bulkLoop_frame (u : String) (op : Option String) (p : Option JVal) :
    ∀ (xs : List JVal) (db : DB) (acc : BulkResults),
      othersOf u (bulkLoop u op p db xs acc).1 = othersOf u db := by
  intro xs
  induction xs with
  | nil => intro db acc; rfl
  | cons x rest ih =>
    intro db acc
    cases hstep : bulkStep db u op p x with
    | ok db2 =>
      simp only [bulkLoop, hstep]
      rw [ih db2]
      exact bulkStep_frame db u op p x db2 hstep
    | error m =>
      simp only [bulkLoop, hstep]
      exact ih db _

lemma bulkUpdateTasks_frame (db : DB) (u : String)
    (args : List (String × JVal)) (db2 : DB) (r : BulkResults)
    (h : bulkUpdateTasks db u args = .ok (db2, r)) :
    othersOf u db2 = othersOf u db := by
  unfold bulkUpdateTasks at h
  dsimp only at h
  split at h
  · split at h
    · exact absurd h (by simp)
    · rename_i xs hj hlen
      simp only [Except.ok.injEq] at h
      have hdb : db2 = (bulkLoop u (match jget args "operation" with
          | some (.jstr s) => some s
          | _ => none) (jget args "params") db xs {}).1 := by
        rw [h]
      rw [hdb]
      exact bulkLoop_frame u _ _ xs db {}
  · split at h <;> exact absurd h (by simp)
  · exact absurd h (by simp)

/-- The `.single()` fetch only ever returns one of the caller's own rows. -/
lemma singleTaskFetch_user (db : DB) (u : String) (tidV : Option JVal)
    (t : Task) (h : singleTaskFetch db u tidV = .ok t) :
    t ∈ db.tasks ∧ t.user_id = u := by
  unfold singleTaskFetch at h
  split at h
  · exact absurd h (by intro hc; exact Except.noConfusion hc)
  · rename_i tid htid
    split at h
    · exact absurd h (by intro hc; exact Except.noConfusion hc)
    · split at h
      · rename_i t0 hfilt
        simp only [Except.ok.injEq] at h
        subst h
        have hmem : t0 ∈ db.tasks.filter
            (fun t1 => t1.user_id == u && ((t1.id : Int) == tid)) := by
          rw [hfilt]
          exact List.mem_singleton.mpr rfl
        rw [List.mem_filter] at hmem
        obtain ⟨hdb, hcond⟩ := hmem
        simp only [Bool.and_eq_true, beq_iff_eq] at hcond
        exact ⟨hdb, hcond.1⟩
      · exact absurd h (by intro hc; exact Except.noConfusion hc)

/-- The ignored-error labels select only ever returns one of the caller's
own rows. -/
lemma selectSingleForLabels_user (db : DB) (u : String) (tid : JVal)
    (t : Task) (h : selectSingleForLabels db u tid = some t) :
    t ∈ db.tasks ∧ t.user_id = u := by
  unfold selectSingleForLabels at h
  split at h
  · exact absurd h (by intro hc; exact Option.noConfusion hc)
  · split at h
    · exact absurd h (by intro hc; exact Option.noConfusion hc)
    · rename_i tid0 htid0
      split at h
      · rename_i t0 hfilt
        simp only [Option.some.injEq] at h
        subst h
        have hmem : t0 ∈ db.tasks.filter
            (fun t1 => ((t1.id : Int) == tid0) && t1.user_id == u) := by
          rw [hfilt]
          exact List.mem_singleton.mpr rfl
        rw [List.mem_filter] at hmem
        obtain ⟨hdb, hcond⟩ := hmem
        simp only [Bool.and_eq_true, beq_iff_eq] at hcond
        exact ⟨hdb, hcond.2⟩
      · exact absurd h (by intro hc; exact Option.noConfusion hc)

/-- The list query only ever returns the caller's rows. -/
lemma listQuery_ok_user (db : DB) (u : String) (filter : Option JVal)
    (sortV : JVal) (out : List Task)
    (h : listQuery db u filter sortV = .ok out) :
    ∀ t ∈ out, t.user_id = u := by
  unfold listQuery at h
  dsimp only at h
  repeat' split at h
  all_goals try (apply absurd h; intro hc; exact Except.noConfusion hc)
  all_goals simp only [Except.ok.injEq] at h
  all_goals subst h
  all_goals intro t ht
  all_goals
    first
    | (rw [(List.mergeSort_perm _ _).mem_iff] at ht
       rw [List.mem_filter] at ht
       simp only [Bool.and_eq_true, beq_iff_eq] at ht
       exact ht.2.1.1.1.1.1)
    | (rw [List.mem_filter] at ht
       simp only [Bool.and_eq_true, beq_iff_eq] at ht
       exact ht.2.1.1.1.1.1)

/-- A successful `addTask` leaves every other user's rows unchanged: the
inserted row carries the caller's `user_id`. -/
lemma addTask_frame (db : DB) (u : String) (a b c d e f : Option JVal)
    (db2 : DB) (idn : Nat)
    (h : addTask db u a b c d e f = .ok (db2, idn)) :
    othersOf u db2 = othersOf u db := by
  obtain ⟨t, htu, hdb⟩ := addTask_ok_inv db u a b c d e f db2 idn h
  subst hdb
  unfold othersOf
  simp [List.filter_append, List.filter_cons, htu]

/-- The `listTasksWithFilters` helper only ever returns the caller's
rows. -/
lemma listTasks_ok_user (db : DB) (u : String) (filter sortArg : Option JVal)
    (out : List Task)
    (h : listTasksWithFilters db u filter sortArg = .ok out) :
    ∀ t ∈ out, t.user_id = u := by
  unfold listTasksWithFilters at h
  dsimp only at h
  split at h
  case h_3 => exact absurd h (by simp)
  all_goals
    cases hq : listQuery db u filter (sortArg.getD (.jstr "due_asc")) with
    | ok l =>
      rw [hq] at h
      simp only [Except.mapError, Except.ok.injEq] at h
      subst h
      exact listQuery_ok_user db u filter _ _ hq
    | error m0 =>
      rw [hq] at h
      simp [Except.mapError] at h

/-- User scoping of the dispatch switch itself: whatever the operation
name, a dispatch outcome leaves every other user's rows unchanged, a
`list_tasks` payload holds only the caller's rows, and every deadline-risk
entry derives from one of the caller's stored rows. -/
lemma dispatch_isolation (env : Env) (db : DB) (u id name : String)
    (args : List (String × JVal)) (db2 : DB) (res : ToolResult)
    (hd : dispatchToolCall env db u id name args = (db2, res)) :
    othersOf u db2 = othersOf u db
    ∧ (∀ tasks n, res.output = .listTasks tasks n →
        ∀ t ∈ tasks, t.user_id = u)
    ∧ (∀ rs, res.output = .risks rs →
        ∀ r ∈ rs.risks, ∃ t ∈ db.tasks, t.user_id = u ∧ r.task_id = t.id) := by
  by_cases n1 : name = "create_task"
  · subst n1
    rw [dispatch_create] at hd
    repeat' split at hd
    all_goals (injection hd with h1 h2; subst h1; subst h2)
    all_goals refine ⟨?_, ?_, ?_⟩
    all_goals try exact rfl
    all_goals try exact fun tasks n hres => ToolOutput.noConfusion hres
    all_goals try exact fun rs hres => ToolOutput.noConfusion hres
    all_goals apply addTask_frame
    all_goals assumption
  by_cases n2 : name = "update_task"
  · subst n2
    rw [dispatch_update] at hd
    repeat' split at hd
    all_goals (injection hd with h1 h2; subst h1; subst h2)
    all_goals refine ⟨?_, ?_, ?_⟩
    all_goals try exact rfl
    all_goals try exact fun tasks n hres => ToolOutput.noConfusion hres
    all_goals try exact fun rs hres => ToolOutput.noConfusion hres
    all_goals apply updateTask_frame
    all_goals assumption
  by_cases n3 : name = "list_tasks"
  · subst n3
    rw [dispatch_list] at hd
    repeat' split at hd
    all_goals (injection hd with h1 h2; subst h1; subst h2)
    all_goals refine ⟨?_, ?_, ?_⟩
    all_goals try exact rfl
    all_goals try exact fun rs hres => ToolOutput.noConfusion hres
    all_goals try exact fun tasks n hres => ToolOutput.noConfusion hres
    rename_i tasksX heq
    intro tasks2 n hres t ht
    have hres2 : ToolOutput.listTasks tasksX tasksX.length =
        ToolOutput.listTasks tasks2 n := hres
    injection hres2 with e1 e2
    subst e1
    exact listTasks_ok_user db u _ _ _ heq t ht
  by_cases n4 : name = "schedule_tasks_to_calendar"
  · subst n4
    have hd2 : ((db, ⟨id, .schedule (scheduleTasksToCalendar args)
        (jget args "preview_only")⟩) : DB × ToolResult) = (db2, res) := hd
    injection hd2 with h1 h2
    subst h1; subst h2
    exact ⟨rfl, fun tasks n hres => ToolOutput.noConfusion hres,
      fun rs hres => ToolOutput.noConfusion hres⟩
  by_cases n5 : name = "reschedule_tasks"
  · subst n5
    have hd2 : ((db, ⟨id, .reschedule (rescheduleTasks args)⟩)
        : DB × ToolResult) = (db2, res) := hd
    injection hd2 with h1 h2
    subst h1; subst h2
    exact ⟨rfl, fun tasks n hres => ToolOutput.noConfusion hres,
      fun rs hres => ToolOutput.noConfusion hres⟩
  by_cases n6 : name = "check_deadline_risks"
  · subst n6
    rw [dispatch_risks] at hd
    repeat' split at hd
    all_goals (injection hd with h1 h2; subst h1; subst h2)
    all_goals refine ⟨?_, ?_, ?_⟩
    all_goals try exact rfl
    all_goals try exact fun tasks n hres => ToolOutput.noConfusion hres
    all_goals try exact fun rs hres => ToolOutput.noConfusion hres
    rename_i rX heq
    intro rs hres
    have hres2 : ToolOutput.risks rX = ToolOutput.risks rs := hres
    injection hres2 with e1
    subst e1
    intro r hr
    obtain ⟨-, t, htdb, htu, hre⟩ :=
      checkDeadlineRisks_ok_mem env.dateMs env.now db u _ rX heq r hr
    refine ⟨t, htdb, htu, ?_⟩
    subst hre
    rfl
  by_cases n7 : name = "calculate_priority_score"
  · subst n7
    rw [dispatch_score] at hd
    repeat' split at hd
    all_goals (injection hd with h1 h2; subst h1; subst h2)
    all_goals exact ⟨rfl, fun tasks n hres => ToolOutput.noConfusion hres,
      fun rs hres => ToolOutput.noConfusion hres⟩
  by_cases n8 : name = "bulk_update_tasks"
  · subst n8
    rw [dispatch_bulk] at hd
    repeat' split at hd
    all_goals (injection hd with h1 h2; subst h1; subst h2)
    all_goals refine ⟨?_, ?_, ?_⟩
    all_goals try exact rfl
    all_goals try exact fun tasks n hres => ToolOutput.noConfusion hres
    all_goals try exact fun rs hres => ToolOutput.noConfusion hres
    all_goals apply bulkUpdateTasks_frame
    all_goals assumption
  by_cases n9 : name = "generate_task_brief"
  · subst n9
    rw [dispatch_brief] at hd
    repeat' split at hd
    all_goals (injection hd with h1 h2; subst h1; subst h2)
    all_goals exact ⟨rfl, fun tasks n hres => ToolOutput.noConfusion hres,
      fun rs hres => ToolOutput.noConfusion hres⟩
  by_cases n10 : name = "undo_last_action"
  · subst n10
    have hd2 : ((db, ⟨id, .undo (undoLastAction (jget args "action_id"))⟩)
        : DB × ToolResult) = (db2, res) := hd
    injection hd2 with h1 h2
    subst h1; subst h2
    exact ⟨rfl, fun tasks n hres => ToolOutput.noConfusion hres,
      fun rs hres => ToolOutput.noConfusion hres⟩
  by_cases n11 : name = "ask_clarification"
  · subst n11
    have hd2 : ((db, ⟨id, .clarification true (jget args "missing_fields")
        (jget args "context") (jget args "suggestions")⟩)
        : DB × ToolResult) = (db2, res) := hd
    injection hd2 with h1 h2
    subst h1; subst h2
    exact ⟨rfl, fun tasks n hres => ToolOutput.noConfusion hres,
      fun rs hres => ToolOutput.noConfusion hres⟩
  -- every other name: the default arm of the switch
  unfold dispatchToolCall at hd
  rw [if_neg n1, if_neg n2, if_neg n3, if_neg n4, if_neg n5, if_neg n6,
    if_neg n7, if_neg n8, if_neg n9, if_neg n10, if_neg n11] at hd
  injection hd with h1 h2
  subst h1; subst h2
  exact ⟨rfl, fun tasks n hres => ToolOutput.noConfusion hres,
    fun rs hres => ToolOutput.noConfusion hres⟩

/-- C10: every store access of an invocation's execution is scoped to the
calling user: a successful `executeToolCall` leaves every other user's rows
exactly as they were (inserts carry the caller's `user_id`; updates,
deletes and the bulk operations filter on it), a `list_tasks` payload
contains only the caller's rows, every reported deadline-risk entry is
computed from one of the caller's stored rows, and the `.single()` fetches
of the scoring and relabel paths only ever return one of the caller's own
rows. -/
theorem per_user_isolation (env : Env) (db : DB) (u : String) (tc : ToolCall)
    (db2 : DB) (res : ToolResult)
    (hex : executeToolCall env db u tc = .ok (db2, res)) :
    othersOf u db2 = othersOf u db
    ∧ (∀ tasks n, res.output = .listTasks tasks n →
        ∀ t ∈ tasks, t.user_id = u)
    ∧ (∀ rs, res.output = .risks rs →
        ∀ r ∈ rs.risks, ∃ t ∈ db.tasks, t.user_id = u ∧ r.task_id = t.id)
    ∧ (∀ (db0 : DB) (tidV : Option JVal) (t : Task),
        singleTaskFetch db0 u tidV = .ok t → t ∈ db0.tasks ∧ t.user_id = u)
    ∧ (∀ (db0 : DB) (tidV : JVal) (t : Task),
        selectSingleForLabels db0 u tidV = some t →
          t ∈ db0.tasks ∧ t.user_id = u) := by
  obtain ⟨id, name, arguments⟩ := tc
  cases arguments with
  | error e => exact Except.noConfusion hex
  | ok rawArgs =>
    have hE : executeToolCall env db u ⟨id, name, .ok rawArgs⟩ =
        .ok (dispatchToolCall env db u id name
          (sanitizeArgs (jentries rawArgs))) := rfl
    rw [hE] at hex
    have hd := Except.ok.inj hex
    obtain ⟨h1, h2, h3⟩ := dispatch_isolation env db u id name
      (sanitizeArgs (jentries rawArgs)) db2 res hd
    exact ⟨h1, h2, h3,
      fun db0 tidV t h => singleTaskFetch_user db0 u tidV t h,
      fun db0 tidV t h => selectSingleForLabels_user db0 u tidV t h⟩

/-- Witness: a concrete `create_task` execution for user `u` on the empty
store leaves the (empty) set of other users' rows unchanged. -/
theorem per_user_isolation_witness :
    othersOf "u"
      { tasks := [{ id := 1, user_id := "u", content := "x",
                    status := some "open" }],
        nextId := 2 } = othersOf "u" dbW :=
  (per_user_isolation envW dbW "u"
    ⟨"c10", "create_task", .ok (.jobj [("title", .jstr "x")])⟩
    { tasks := [{ id := 1, user_id := "u", content := "x",
                  status := some "open" }],
      nextId := 2 }
    ⟨"c10", .createTask 1 ("Task \"x\" created successfully")⟩ rfl).1

end NoteAI
